import Mathlib

/-! Moderation helpers, post categories, topic creation and the group and admin
controllers.

A shallow embedding of `src/user/info.js` (`getLatestBanInfo`,
`getFlagMetadata`, `formatBanMuteData`, `getModerationHistory`, the moderation
notes functions), `src/posts/category.js`, `create` of `src/api/topics.ts`,
`details` of `src/controllers/groups.js` and `routeIndex` of
`src/controllers/admin.js`, over an explicit model of the record store, followed
by the properties established about them.

JavaScript values are modelled by `Val`; a thrown exception is the `error`
branch of `Except JsError`. `await` and `Promise.all` are modelled by
sequential evaluation: results are joined by position.
-/

set_option autoImplicit false

namespace NodeBB

/-! ## JavaScript values -/

/-- Primitive JavaScript values. Numbers are integers (timestamps, ids), with
`nan` for the not-a-number result of a failed parse. -/
inductive Prim where
  | undefined
  | null
  | bool (b : Bool)
  | num (n : Int)
  | nan
  | str (s : String)
  deriving DecidableEq, Repr

/-- A JavaScript value: a primitive, a flat object (a user view, a report) or
an array of flat objects (a report list). -/
inductive Val where
  | prim (p : Prim)
  | obj (fields : List (String × Prim))
  | arr (items : List (List (String × Prim)))
  deriving DecidableEq, Repr

/-- A record: a JavaScript object as an ordered list of fields. -/
abbrev Rec := List (String × Val)

/-- The value `undefined`. -/
abbrev Val.undefined : Val := .prim .undefined

/-- A string value. -/
abbrev Val.str (s : String) : Val := .prim (.str s)

/-- A number value. -/
abbrev Val.num (n : Int) : Val := .prim (.num n)

/-- The value `true`. -/
abbrev Val.true : Val := .prim (.bool Bool.true)

/-- What a thrown exception carries: a `TypeError` (property access on `null`
or `undefined`) or `new Error(message)`. -/
inductive JsError where
  | typeError
  | error (message : String)
  deriving DecidableEq, Repr

deriving instance DecidableEq for Except

/-- Property read `r.k`: `undefined` when the field is absent. -/
def getField : Rec → String → Val
  | [], _ => Val.undefined
  | (k₀, v₀) :: r, k => if k₀ = k then v₀ else getField r k

/-- Property write `r.k = v`: an existing field keeps its place, a new field is
appended. -/
def setField : Rec → String → Val → Rec
  | [], k, v => [(k, v)]
  | (k₀, v₀) :: r, k, v => if k₀ = k then (k, v) :: r else (k₀, v₀) :: setField r k v

/-- JavaScript truthiness of a primitive. -/
def Prim.truthy : Prim → Bool
  | .undefined => false
  | .null => false
  | .bool b => b
  | .num n => n != 0
  | .nan => false
  | .str s => s != ""

/-- JavaScript truthiness: objects and arrays are always truthy. -/
def Val.truthy : Val → Bool
  | .prim p => p.truthy
  | .obj _ => Bool.true
  | .arr _ => Bool.true

/-- The conversion `String(p)` of a primitive. Integers print in plain decimal,
as JavaScript prints them below `10^21`. -/
def Prim.toJsString : Prim → String
  | .undefined => "undefined"
  | .null => "null"
  | .bool b => if b then "true" else "false"
  | .num n => toString n
  | .nan => "NaN"
  | .str s => s

/-- The conversion `String(v)`; also what a template literal interpolates. -/
def Val.toJsString : Val → String
  | .prim p => p.toJsString
  | .obj _ => "[object Object]"
  | .arr items => ",".intercalate (items.map (fun _ => "[object Object]"))

/-- The expression `a || b`. -/
def jsOr (a b : Val) : Val := if a.truthy then a else b

/-! ## Library functions -/

/-- One `str.replace(/c/g, rep)` step on the characters of a string. -/
def replaceAll (c : Char) (rep : String) (cs : List Char) : List Char :=
  cs.flatMap (fun x => if x = c then rep.data else [x])

/-- The function `validator.escape` of the validator package: the chain of
eight global replacements `&`, `"`, apostrophe, `<`, `>`, `/`, backslash,
backquote by their entities, in that order. -/
def escape (s : String) : String :=
  String.mk
    (replaceAll (Char.ofNat 96) "&#96;"
      (replaceAll (Char.ofNat 92) "&#x5C;"
        (replaceAll '/' "&#x2F;"
          (replaceAll '>' "&gt;"
            (replaceAll '<' "&lt;"
              (replaceAll (Char.ofNat 39) "&#x27;"
                (replaceAll '"' "&quot;"
                  (replaceAll '&' "&amp;" s.data))))))))

/-- White space skipped by `parseInt` before the number. -/
def isJsWhiteSpace (c : Char) : Bool :=
  [9, 10, 11, 12, 13, 32, 160, 5760, 8232, 8233, 8239, 8287, 12288, 65279].contains c.toNat
    || (8192 ≤ c.toNat && c.toNat ≤ 8202)

/-- The longest prefix of decimal digits, read as a number; `none` when there
is no digit. -/
def parseDigits : List Char → Option Nat → Option Nat
  | [], acc => acc
  | c :: cs, acc =>
    if c.isDigit then
      parseDigits cs (some ((acc.getD 0) * 10 + (c.toNat - 48)))
    else acc

/-- The call `parseInt(s, 10)` on a string: leading white space, an optional
sign, then the longest run of digits; `NaN` without a digit. -/
def parseIntString (s : String) : Prim :=
  match s.data.dropWhile isJsWhiteSpace with
  | '-' :: cs =>
    match parseDigits cs none with
    | some n => .num (-(n : Int))
    | none => .nan
  | '+' :: cs =>
    match parseDigits cs none with
    | some n => .num n
    | none => .nan
  | cs =>
    match parseDigits cs none with
    | some n => .num n
    | none => .nan

/-- The call `parseInt(v, 10)`: the argument is converted to a string first. -/
def parseInt (v : Val) : Val := .prim (parseIntString v.toJsString)

/-! ## Sequencing helpers -/

/-- The call `xs.map(f)` for a callback that may throw: callbacks run left to
right and the first exception is the result. -/
def mapExcept {α β : Type} (f : α → Except JsError β) : List α → Except JsError (List β)
  | [] => .ok []
  | a :: as =>
    match f a with
    | .error e => .error e
    | .ok b =>
      match mapExcept f as with
      | .error e => .error e
      | .ok bs => .ok (b :: bs)

/-- The call `xs.map((x, index) => f(index, x))`, counting from `i`. -/
def mapIdxFrom {α β : Type} (f : Nat → α → β) : Nat → List α → List β
  | _, [] => []
  | i, a :: as => f i a :: mapIdxFrom f (i + 1) as

/-- The variant of `mapIdxFrom` for a callback that may throw. -/
def mapIdxExcept {α β : Type} (f : Nat → α → Except JsError β) :
    Nat → List α → Except JsError (List β)
  | _, [] => .ok []
  | i, a :: as =>
    match f i a with
    | .error e => .error e
    | .ok b =>
      match mapIdxExcept f (i + 1) as with
      | .error e => .error e
      | .ok bs => .ok (b :: bs)

/-- Array read `xs[i]`: `undefined` past the end. -/
def elemAt (xs : List Val) (i : Nat) : Val := xs.getD i Val.undefined

/-! ## The record store -/

/-- Modelled from the spec: the record store (`src/database`), a key/value and
sorted-set store addressed by string keys. A sorted index maps members to
integer scores; an object key holds a record or nothing. -/
structure Store where
  /-- The entries (member, score) of the sorted index at a key. -/
  sortedSets : String → List (String × Int)
  /-- The record stored at a key, if any. -/
  objects : String → Option Rec

/-- Descending score order of index entries. -/
def revOrder (a b : String × Int) : Prop := b.2 ≤ a.2

instance : DecidableRel revOrder := fun a b => inferInstanceAs (Decidable (b.2 ≤ a.2))

instance : IsTotal (String × Int) revOrder := ⟨fun a b => Int.le_total b.2 a.2⟩

instance : IsTrans (String × Int) revOrder := ⟨fun _ _ _ hab hbc => Int.le_trans hbc hab⟩

/-- Modelled from the spec: the inclusive rank range `[start, stop]` of an
ordered sequence; a negative bound counts from the end. -/
def sliceRange {α : Type} (l : List α) (start stop : Int) : List α :=
  let len : Int := l.length
  let start := if start < 0 then max (len + start) 0 else start
  let stop := if stop < 0 then len + stop else stop
  if stop < start then [] else (l.drop start.toNat).take (stop - start + 1).toNat

/-- Modelled from the spec: `db.getSortedSetRevRangeWithScores(keys, start, stop)`,
the entries of the indexes at `keys` combined, highest score first, cut to the
inclusive rank range. -/
def Store.getSortedSetRevRangeWithScores (s : Store) (keys : List String) (start stop : Int) :
    List (String × Int) :=
  sliceRange ((keys.flatMap s.sortedSets).insertionSort revOrder) start stop

/-- Modelled from the spec: `db.getSortedSetRevRange(keys, start, stop)`, the
members of the same range. -/
def Store.getSortedSetRevRange (s : Store) (keys : List String) (start stop : Int) :
    List String :=
  (s.getSortedSetRevRangeWithScores keys start stop).map Prod.fst

/-- Modelled from the spec: `db.getObject(key)`, the record or `null`. -/
def Store.getObject (s : Store) (key : String) : Option Rec := s.objects key

/-- Modelled from the spec: `db.getObjects(keys)`, one record or `null` per key,
in key order. -/
def Store.getObjects (s : Store) (keys : List String) : List (Option Rec) :=
  keys.map s.getObject

/-- The projection of a record on the requested fields; a field the record
lacks is `null`. -/
def projectFields (fields : List String) (r : Rec) : Rec :=
  fields.map (fun f => (f, if getField r f = Val.undefined then Val.prim .null else getField r f))

/-- Modelled from the spec: `db.getObjectsFields(keys, fields)`, the
field-projected variant of `getObjects`: one projected record or `null` per
key, in key order. -/
def Store.getObjectsFields (s : Store) (keys : List String) (fields : List String) :
    List (Option Rec) :=
  keys.map (fun key => (s.getObject key).map (projectFields fields))

/-- Modelled from the spec: `db.sortedSetAdd(key, score, member)`; a member
already in the index is re-scored. -/
def Store.sortedSetAdd (s : Store) (key : String) (score : Int) (member : String) : Store :=
  { s with sortedSets := fun k =>
      if k = key then (member, score) :: (s.sortedSets k).filter (fun e => e.1 != member)
      else s.sortedSets k }

/-- The record `base` with every field of `data` written over it. -/
def mergeFields (base : Rec) : Rec → Rec
  | [] => base
  | (k, v) :: rest => setField (mergeFields base rest) k v

/-- Modelled from the spec: `db.setObject(key, data)`; the fields of `data` are
written over the record at `key`, which is created when absent; nothing else is
touched. -/
def Store.setObject (s : Store) (key : String) (data : Rec) : Store :=
  { s with objects := fun k =>
      if k = key then some (mergeFields ((s.objects k).getD []) data) else s.objects k }

/-- Modelled from the spec: the score of an index entry is a number; no other
value is taken as a score by `db.sortedSetAdd`. -/
def scoreOf : Val → Option Int
  | .prim (.num n) => some n
  | _ => none

/-! ## Collaborators -/

/-- The collaborators of `src/user/info.js` that live outside it, as
parameters. -/
structure Env where
  /-- The formatter `utils.toISOString`. -/
  toISOString : Val → Val
  /-- The lookup `Flags.getReports(flagId)`. -/
  getReports : Val → Val
  /-- The `tid` field of the post with the given pid (absent: `undefined`). -/
  postTid : Val → Val
  /-- The title of the topic with the given tid, if the topic exists. -/
  topicTitle : Val → Option Val
  /-- The identity (uid, username, userslug, picture) of a user, if the user
  exists. -/
  userView : Val → Option (List (String × Prim))
  /-- The hook `filter:parse.raw`. -/
  parseRaw : String → String

/-- The identity of a user as a value: `undefined` when the user does not
exist. -/
def userValue (env : Env) (uid : Val) : Val :=
  match env.userView uid with
  | some view => Val.obj view
  | none => Val.undefined

/-- Modelled from the spec: `User.getUsersFields(uids, fields)`, one identity
or `undefined` per uid, aligned positionally to `uids`. -/
def getUsersFields (env : Env) (uids : List Val) : List Val :=
  uids.map (userValue env)

/-- Modelled from the spec: `posts.getPostsFields(pids, ['tid'])`, one post view
per pid, in order. -/
def getPostsFields (env : Env) (pids : List Val) : List Rec :=
  pids.map (fun pid => [("tid", env.postTid pid)])

/-- The title view of one topic: no fields for a tid that is absent or names
no topic. -/
def topicFields (env : Env) (tid : Val) : Option Rec :=
  if tid.truthy then (env.topicTitle tid).map (fun t => [("title", t)]) else none

/-- Modelled from the spec: `topics.getTopicsFields(tids, ['title'])`, one entry
per tid, in order; a tid that is absent or names no topic yields no fields. -/
def getTopicsFields (env : Env) (tids : List Val) : List (Option Rec) :=
  tids.map (topicFields env)

/-- The call `_.extend(r, src)`: every field of `src` is written on `r`; an
absent `src` changes nothing. -/
def extend (r : Rec) (src : Option Rec) : Rec :=
  match src with
  | some o => o.foldl (fun acc p => setField acc p.1 p.2) r
  | none => r

/-! ## `src/user/info.js` -/

/-- The key `uid:<uid>:bans:timestamp`. -/
def bansKey (uid : Val) : String := "uid:" ++ uid.toJsString ++ ":bans:timestamp"

/-- The key `uid:<uid>:unbans:timestamp`. -/
def unbansKey (uid : Val) : String := "uid:" ++ uid.toJsString ++ ":unbans:timestamp"

/-- The key `uid:<uid>:mutes:timestamp`. -/
def mutesKey (uid : Val) : String := "uid:" ++ uid.toJsString ++ ":mutes:timestamp"

/-- The key `uid:<uid>:unmutes:timestamp`. -/
def unmutesKey (uid : Val) : String := "uid:" ++ uid.toJsString ++ ":unmutes:timestamp"

/-- The key `flags:byTargetUid:<uid>`. -/
def flagsKey (uid : Val) : String := "flags:byTargetUid:" ++ uid.toJsString

/-- The key `uid:<uid>:moderation:notes`. -/
def notesKey (uid : Val) : String := "uid:" ++ uid.toJsString ++ ":moderation:notes"

/-- The key `uid:<uid>:moderation:note:<id>`. -/
def noteKey (uid id : Val) : String :=
  "uid:" ++ uid.toJsString ++ ":moderation:note:" ++ id.toJsString

/-- The function `getLatestBanInfo(uid)` (lines 18-36). Reading `banInfo.expire`
on a `null` record is a `TypeError`. -/
def getLatestBanInfo (env : Env) (s : Store) (uid : Val) : Except JsError Rec :=
  match s.getSortedSetRevRange [bansKey uid] 0 0 with
  | [] => .error (.error "no-ban-info")
  | key :: _ =>
    match s.getObject key with
    | none => .error .typeError
    | some banInfo =>
      let expire := parseInt (getField banInfo "expire")
      let expire_readable := env.toISOString expire
      .ok [("uid", uid),
        ("timestamp", getField banInfo "timestamp"),
        ("banned_until", expire),
        ("expiry", expire),
        ("banned_until_readable", expire_readable),
        ("expiry_readable", expire_readable),
        ("reason", Val.str (escape (jsOr (getField banInfo "reason") (Val.str "")).toJsString))]

/-- The filter predicate `flag && flag.type === 'post'` (line 39). -/
def isPostFlag (flag : Option Rec) : Bool :=
  match flag with
  | some r => getField r "type" == Val.str "post"
  | none => false

/-- The callback `flag => Flags.getReports(flag.flagId)` (line 40): reading
`flagId` on a `null` entry is a `TypeError`. -/
def reportsOf (env : Env) (flag : Option Rec) : Except JsError Val :=
  match flag with
  | some r => .ok (env.getReports (getField r "flagId"))
  | none => .error .typeError

/-- The three writes of lines 44-46 on a non-null flag, `report` being the
value of `reports[idx]`. -/
def tagFlag (env : Env) (report : Val) (flag : Rec) : Rec :=
  let r := setField flag "timestamp" (parseInt (getField flag "datetime"))
  let r := setField r "timestampISO" (env.toISOString (getField r "datetime"))
  setField r "reports" report

/-- The body of `flags.forEach((flag, idx) => ...)` (lines 42-48): a `null`
entry is left alone. -/
def attachReports (env : Env) (reports : List Val) (idx : Nat) (flag : Option Rec) :
    Option Rec :=
  flag.map (tagFlag env (elemAt reports idx))

/-- The array `postFlags` (line 39) as it stands when it is read: the objects of
`flags` at the positions the filter selected. -/
def selectPostFlags : List Bool → List (Option Rec) → List Rec
  | true :: ms, some r :: rest => r :: selectPostFlags ms rest
  | _ :: ms, _ :: rest => selectPostFlags ms rest
  | _, _ => []

/-- The writes of lines 56-60 on a post flag, `tid` and `topic` being the
values of `tids[idx]` and `topicData[idx]`. -/
def linkTopic (tid : Val) (topic : Option Rec) (flagObj : Rec) : Rec :=
  let r := setField flagObj "pid" (getField flagObj "targetId")
  let r := if tid.truthy then r else setField r "targetPurged" Val.true
  extend r topic

/-- The body of `postFlags.forEach((flagObj, idx) => ...)` (lines 55-61). -/
def attachTopic (tids : List Val) (topicData : List (Option Rec)) (idx : Nat) (flagObj : Rec) :
    Rec :=
  linkTopic (elemAt tids idx) (topicData.getD idx none) flagObj

/-- The effect of `postFlags.forEach` (lines 55-61) seen through `flags`: the
objects of `postFlags` are objects of `flags`, so the write on the `idx`-th
selected object shows at its position in `flags`. -/
def updatePostFlags (tids : List Val) (topicData : List (Option Rec)) :
    Nat → List Bool → List (Option Rec) → List (Option Rec)
  | idx, true :: ms, some flagObj :: rest =>
    some (attachTopic tids topicData idx flagObj) :: updatePostFlags tids topicData (idx + 1) ms rest
  | idx, _ :: ms, flag :: rest => flag :: updatePostFlags tids topicData idx ms rest
  | _, _, flags => flags

/-- The function `getFlagMetadata(flags)` (lines 38-64). -/
def getFlagMetadata (env : Env) (flags : List (Option Rec)) :
    Except JsError (List (Option Rec)) :=
  let selected := flags.map isPostFlag
  match mapExcept (reportsOf env) flags with
  | .error e => .error e
  | .ok reports =>
    let flags := mapIdxFrom (attachReports env reports) 0 flags
    let postFlags := selectPostFlags selected flags
    let pids := postFlags.map (fun flagObj => parseInt (getField flagObj "targetId"))
    let postData := getPostsFields env pids
    let tids := postData.map (fun post => getField post "tid")
    let topicData := getTopicsFields env tids
    .ok (updatePostFlags tids topicData 0 selected flags)

/-- The callback `d => d.fromUid` (line 68): a `TypeError` on a `null` entry. -/
def fromUidOf (d : Option Rec) : Except JsError Val :=
  match d with
  | some r => .ok (getField r "fromUid")
  | none => .error .typeError

/-- The five writes of lines 72-76 on a non-null record, `user` being the value
of `usersData[index]`. -/
def formatRecord (env : Env) (noReasonLangKey : Val) (user : Val) (banObj : Rec) : Rec :=
  let r := setField banObj "user" user
  let r := setField r "until" (parseInt (getField r "expire"))
  let r := setField r "untilISO" (env.toISOString (getField r "until"))
  let r := setField r "timestampISO" (env.toISOString (getField r "timestamp"))
  setField r "reason"
    (jsOr (Val.str (escape (jsOr (getField r "reason") (Val.str "")).toJsString))
      noReasonLangKey)

/-- The callback of `data.map((banObj, index) => ...)` (lines 71-78): writing
`banObj.user` on a `null` entry is a `TypeError`. -/
def formatBanObj (env : Env) (usersData : List Val) (noReasonLangKey : Val) (index : Nat)
    (banObj : Option Rec) : Except JsError Rec :=
  match banObj with
  | none => .error .typeError
  | some r => .ok (formatRecord env noReasonLangKey (elemAt usersData index) r)

/-- The function `formatBanMuteData(User, keys, noReasonLangKey)` (lines 66-79). -/
def formatBanMuteData (env : Env) (s : Store) (keys : List String) (noReasonLangKey : Val) :
    Except JsError (List Rec) :=
  let data := s.getObjects keys
  match mapExcept fromUidOf data with
  | .error e => .error e
  | .ok uids =>
    let usersData := getUsersFields env uids
    mapIdxExcept (formatBanObj env usersData noReasonLangKey) 0 data

/-- The result (flags, bans, mutes) of `getModerationHistory`. -/
structure ModerationHistory where
  /-- The enriched flags. -/
  flags : List (Option Rec)
  /-- The formatted ban and unban records. -/
  bans : List Rec
  /-- The formatted mute and unmute records. -/
  mutes : List Rec
  deriving DecidableEq, Repr

/-- The function `getModerationHistory(User, uid)` (lines 81-102). The three
joined calls can only fail with a `TypeError`, so the order in which their
failures are looked at does not show. -/
def getModerationHistory (env : Env) (s : Store) (uid : Val) :
    Except JsError ModerationHistory :=
  let flags := s.getSortedSetRevRangeWithScores [flagsKey uid] 0 19
  let bans := s.getSortedSetRevRange [bansKey uid, unbansKey uid] 0 19
  let mutes := s.getSortedSetRevRange [mutesKey uid, unmutesKey uid] 0 19
  let keys := flags.map (fun flagObj => "flag:" ++ flagObj.1)
  let payload := s.getObjectsFields keys ["flagId", "type", "targetId", "datetime"]
  match getFlagMetadata env payload with
  | .error e => .error e
  | .ok flags =>
    match formatBanMuteData env s bans (Val.str "[[user:info.banned-no-reason]]") with
    | .error e => .error e
    | .ok bans =>
      match formatBanMuteData env s mutes (Val.str "[[user:info.muted-no-reason]]") with
      | .error e => .error e
      | .ok mutes => .ok { flags := flags, bans := bans, mutes := mutes }

/-- The first `notes.forEach((note, idx) => ...)` (lines 140-146), on one
entry: the note with `id` and `timestampISO` set. -/
def tagNote (env : Env) (noteIds : List Val) (idx : Nat) (note : Option Rec) : Option Rec :=
  note.map (fun r =>
    let r := setField r "id" (elemAt noteIds idx)
    setField r "timestampISO" (env.toISOString (getField r "timestamp")))

/-- The array `uids` built by `uids.push(note.uid)` (line 143): one entry per
non-null note, read once `id` is set. -/
def noteUids (noteIds : List Val) : Nat → List (Option Rec) → List Val
  | _, [] => []
  | idx, some r :: rest =>
    getField (setField r "id" (elemAt noteIds idx)) "uid" :: noteUids noteIds (idx + 1) rest
  | idx, none :: rest => noteUids noteIds (idx + 1) rest

/-- The callback of `notes.map(async (note, index) => ...)` (lines 149-155). -/
def renderNote (env : Env) (userData : List Val) (index : Nat) (note : Option Rec) :
    Option Rec :=
  note.map (fun r =>
    let r := setField r "rawNote" (Val.str (escape (getField r "note").toJsString))
    let r := setField r "note" (Val.str (env.parseRaw (getField r "note").toJsString))
    setField r "user" (elemAt userData index))

/-- The function `_getModerationNotesByIds(User, options)`
(lines 135-157). -/
def getModerationNotesByIds (env : Env) (s : Store) (uid : Val) (noteIds : List Val) :
    List (Option Rec) :=
  let keys := noteIds.map (fun id => noteKey uid id)
  let notes := s.getObjects keys
  let uids := noteUids noteIds 0 notes
  let notes := mapIdxFrom (tagNote env noteIds) 0 notes
  let userData := getUsersFields env uids
  mapIdxFrom (renderNote env userData) 0 notes

/-- The function `_getModerationNotes(User, options)`
(lines 129-133). -/
def getModerationNotes (env : Env) (s : Store) (uid : Val) (start stop : Int) :
    List (Option Rec) :=
  let noteIds := s.getSortedSetRevRange [notesKey uid] start stop
  getModerationNotesByIds env s uid (noteIds.map Val.str)

/-- What `getFlagMetadata` does to one non-null flag taken on its own: the
writes of lines 44-46 with the reports of its own `flagId`, then, for a post
flag, the writes of lines 56-60 with the topic of its own target post. -/
def enrichFlag (env : Env) (flag : Rec) : Rec :=
  let r := tagFlag env (env.getReports (getField flag "flagId")) flag
  if isPostFlag (some flag) then
    let tid := env.postTid (parseInt (getField r "targetId"))
    linkTopic tid (topicFields env tid) r
  else r

/-- Whether a record has the field `k`. -/
def hasField : Rec → String → Bool
  | [], _ => false
  | (k₀, _) :: r, k => if k₀ = k then Bool.true else hasField r k

/-- The function `getFlagMetadata(flags)` (lines 38-64) with its post lookup
kept on record: next to the flags returned at line 63, the array `pids` that
line 51 hands to `posts.getPostsFields`. -/
def getFlagMetadataTraced (env : Env) (flags : List (Option Rec)) :
    Except JsError (List Val × List (Option Rec)) :=
  let selected := flags.map isPostFlag
  match mapExcept (reportsOf env) flags with
  | .error e => .error e
  | .ok reports =>
    let flags := mapIdxFrom (attachReports env reports) 0 flags
    let postFlags := selectPostFlags selected flags
    let pids := postFlags.map (fun flagObj => parseInt (getField flagObj "targetId"))
    let postData := getPostsFields env pids
    let tids := postData.map (fun post => getField post "tid")
    let topicData := getTopicsFields env tids
    .ok (pids, updatePostFlags tids topicData 0 selected flags)

/-- The function `appendModerationNote` (lines 159-162): the timestamp of the
note is the score and, printed, the member of the index entry. -/
def appendModerationNote (s : Store) (uid : Val) (noteData : Rec) : Except JsError Store :=
  match scoreOf (getField noteData "timestamp") with
  | none => .error (.error "[[error:invalid-score]]")
  | some score =>
    let s := s.sortedSetAdd (notesKey uid) score (getField noteData "timestamp").toJsString
    .ok (s.setObject (noteKey uid (getField noteData "timestamp")) noteData)

/-- The function `setModerationNote` (lines 164-166). -/
def setModerationNote (s : Store) (uid : Val) (noteData : Rec) : Store :=
  s.setObject (noteKey uid (getField noteData "timestamp")) noteData

/-- A moderation note of the data model: author `uid`, body `note` and creation
`timestamp`. -/
def mkNote (author body : Val) (timestamp : Int) : Rec :=
  [("uid", author), ("note", body), ("timestamp", Val.num timestamp)]

/-! ## `src/posts/category.js` -/

/-- Modelled from the spec: `db.isSortedSetMembers(key, values)`, one boolean
per value, in order: whether the value, printed, is a member of the index at
`key`. -/
def Store.isSortedSetMembers (s : Store) (key : String) (values : List Val) : List Bool :=
  values.map (fun v => (s.sortedSets key).any (fun e => e.1 == v.toJsString))

/-- The call `xs.filter((x, index) => p(index, x))`, counting from `i`. -/
def filterIdxFrom (p : Nat → Val → Bool) : Nat → List Val → List Val
  | _, [] => []
  | i, a :: as =>
    if p i a then a :: filterIdxFrom p (i + 1) as else filterIdxFrom p (i + 1) as

/-- The function `_.uniq`: the first occurrence of every value, in order. -/
def uniq : List Val → List Val
  | [] => []
  | a :: as => a :: (uniq as).filter (fun b => b != a)

/-- The function `_.union(...arrays)`: the values of all arrays, first
occurrences only, in order. -/
def union (arrays : List (List Val)) : List Val := uniq arrays.flatten

/-- The function `filterPidsBySingleCid(pids)` (lines 49-53). The declaration
has the single parameter `pids`, and the key is written between single quotes:
it is the text as it stands, `cid` is not read and nothing is interpolated. -/
def filterPidsBySingleCid (s : Store) (pids : List Val) : List Val :=
  let isMembers := s.isSortedSetMembers "cid:$\x7bparseInt(cid, 10)\x7d:pids" pids
  filterIdxFrom (fun index pid => pid.truthy && isMembers.getD index false) 0 pids

/-- The `cid` argument of `Posts.filterPidsByCid`: one value or an array of
values. -/
inductive CidArg where
  | value (cid : Val)
  | list (cids : List Val)
  deriving DecidableEq, Repr

/-- The function `Posts.filterPidsByCid(pids, c)` (lines 34-47) for an element
`c` of a cid array or a single value: a falsy `c` filters nothing, an array of
objects is treated by its length, anything else is a single cid. -/
def filterPidsByVal (s : Store) (pids : List Val) : Val → List Val
  | .arr items =>
    if items.length = 1 then filterPidsBySingleCid s pids
    else union (items.map (fun _ => filterPidsBySingleCid s pids))
  | c => if c.truthy then filterPidsBySingleCid s pids else pids

/-- The function `Posts.filterPidsByCid(pids, cid)` (lines 34-47). -/
def filterPidsByCid (s : Store) (pids : List Val) : CidArg → List Val
  | .value cid => filterPidsByVal s pids cid
  | .list cids =>
    if cids.length = 1 then filterPidsBySingleCid s pids
    else union (cids.map (filterPidsByVal s pids))

/-- What `Posts.filterPidsByCid` is said to return for a single non-empty cid:
the truthy pids, in input order, that are members of `cid:<cid>:pids`. -/
def filterPidsByCidClaimed (s : Store) (pids : List Val) (cid : Val) : List Val :=
  pids.filter (fun pid => pid.truthy &&
    (s.sortedSets ("cid:" ++ (parseInt cid).toJsString ++ ":pids")).any
      (fun e => e.1 == pid.toJsString))

/-- The function `_.zipObject(keys, values)` as the list of its assignments:
key `i`, printed, receives value `i`, or nothing past the end of `values`. -/
def zipObject : List Val → List (Option Rec) → List (String × Option Rec)
  | [], _ => []
  | k :: ks, [] => (k.toJsString, none) :: zipObject ks []
  | k :: ks, v :: vs => (k.toJsString, v) :: zipObject ks vs

/-- Property read `obj[key]` on the result of `zipObject`: the last assignment
to the key, nothing when there is none. -/
def readKey (obj : List (String × Option Rec)) (key : Val) : Option Rec :=
  obj.foldl (fun acc p => if p.1 = key.toJsString then p.2 else acc) none

/-- Modelled from the spec: `topics.getTopicsFields(tids, ['cid'])`, one entry
per tid, in order; a tid that is absent or names no topic yields no fields. -/
def getTopicsCids (topicCid : Val → Option Val) (tids : List Val) : List (Option Rec) :=
  tids.map (fun tid => if tid.truthy then (topicCid tid).map (fun c => [("cid", c)]) else none)

/-- The function `Posts.getCidsByPids(pids)` (lines 24-32); `topicCid` gives
the cid of a topic, if the topic exists. An entry without a topic is
`undefined`. -/
def getCidsByPids (env : Env) (topicCid : Val → Option Val) (pids : List Val) : List Val :=
  let postData := getPostsFields env pids
  let tids := uniq ((postData.map (fun post => getField post "tid")).filter Val.truthy)
  let topicData := getTopicsCids topicCid tids
  let tidToTopic := zipObject tids topicData
  postData.map (fun post =>
    match readKey tidToTopic (getField post "tid") with
    | some topic => getField topic "cid"
    | none => Val.undefined)

/-- A sample category store: category 5 holds posts 1 and 2, category 6 holds
post 3. -/
def sampleCategoryStore : Store where
  sortedSets := fun k =>
    if k = "cid:5:pids" then [("1", 10), ("2", 20)]
    else if k = "cid:6:pids" then [("3", 30)]
    else []
  objects := fun _ => none

/-! ## `src/api/topics.ts` -/

/-- The collaborators of `create` in `src/api/topics.ts`, as parameters. -/
structure TopicsApi where
  /-- The time `Date.now()` read when the defaults of a payload are set. -/
  now : Int
  /-- The request summary `apiHelpers.buildReqObject(caller, payload)`. -/
  reqObject : Rec → Rec → Val
  /-- The check `privileges.categories.can(privilege, cid, uid)`. -/
  can : String → Val → Val → Bool
  /-- Whether `meta.blacklist.test(ip)` rejects the address. -/
  blacklisted : Val → Bool
  /-- The decision `posts.shouldQueue(uid, payload)`. -/
  shouldQueue : Val → Rec → Bool

/-- Modelled from the spec: `apiHelpers.setDefaultPostData(caller, payload)`
(`src/api/helpers.js`), which sets on the payload the uid of the caller, the
request summary, the current time as default `timestamp`, and
`fromQueue = false`. -/
def setDefaultPostData (api : TopicsApi) (caller payload : Rec) : Rec :=
  let r := setField payload "uid" (getField caller "uid")
  let r := setField r "req" (api.reqObject caller r)
  let r := setField r "timestamp" (Val.num api.now)
  setField r "fromQueue" (.prim (.bool false))

/-- The test `typeof v === 'string'`. -/
def isString : Val → Bool
  | .prim (.str _) => Bool.true
  | _ => Bool.false

/-- The numeric value of a decimal integer text: surrounding white space is
dropped, the empty text is 0, and a text that is not an optionally signed run
of digits is NaN (`none`). -/
def stringToNumber (s : String) : Option Int :=
  match (s.data.dropWhile isJsWhiteSpace).reverse.dropWhile isJsWhiteSpace |>.reverse with
  | [] => some 0
  | '-' :: cs => if cs.all Char.isDigit then (parseDigits cs none).map (fun n => -(n : Int)) else none
  | '+' :: cs => if cs.all Char.isDigit then (parseDigits cs none).map (fun n => (n : Int)) else none
  | cs => if cs.all Char.isDigit then (parseDigits cs none).map (fun n => (n : Int)) else none

/-- The conversion of a value to a number, `none` standing for NaN. -/
def toNumber : Val → Option Int
  | .prim .undefined => none
  | .prim .null => some 0
  | .prim (.bool b) => some (if b then 1 else 0)
  | .prim (.num n) => some n
  | .prim .nan => none
  | .prim (.str s) => stringToNumber s
  | .obj _ => none
  | .arr items => if items.isEmpty then some 0 else none

/-- The comparison `a > b` of two values that are not both strings: both are
converted to numbers, and the result is `false` when one of them is NaN. -/
def greaterThan (a b : Val) : Bool :=
  match toNumber a, toNumber b with
  | some x, some y => decide (y < x)
  | _, _ => Bool.false

/-- The constant `dataTimestamp` of `create` (line 85): a string timestamp is
parsed, any other value is taken as it is. -/
def dataTimestamp (data : Rec) : Val :=
  if isString (getField data "timestamp") then parseInt (getField data "timestamp")
  else getField data "timestamp"

/-- The first part of `create(caller, data)` (lines 76-93): the payload that goes
on to the blacklist test, the queue and the posting, or the exception thrown
before them. -/
def createPayload (api : TopicsApi) (caller : Rec) (data : Option Rec) : Except JsError Rec :=
  match data with
  | none => .error (.error "[[error:invalid-data]]")
  | some data =>
    let payload := data
    let payload := setField payload "tags" (jsOr (getField payload "tags") (Val.arr []))
    let payload := setDefaultPostData api caller payload
    let isScheduling := greaterThan (dataTimestamp data) (getField payload "timestamp")
    if isScheduling then
      if api.can "topics:schedule" (getField data "cid") (getField caller "uid") then
        .ok (setField payload "timestamp" (dataTimestamp data))
      else .error (.error "[[error:no-privileges]]")
    else .ok payload

/-- What `create` goes on to do with the payload: queue it or post it. -/
inductive CreateOutcome where
  | queued (payload : Rec)
  | posted (payload : Rec)
  deriving DecidableEq, Repr

/-- The payload that is queued or posted. -/
def CreateOutcome.payload : CreateOutcome → Rec
  | .queued payload => payload
  | .posted payload => payload

/-- The function `create(caller, data)` (lines 76-116): the payload of lines
76-93, then the blacklist test, then the queue or the posting. -/
def create (api : TopicsApi) (caller : Rec) (data : Option Rec) :
    Except JsError CreateOutcome :=
  match createPayload api caller data with
  | .error e => .error e
  | .ok payload =>
    if api.blacklisted (getField caller "ip") then .error (.error "[[error:blacklisted-ip]]")
    else if api.shouldQueue (getField caller "uid") payload then .ok (.queued payload)
    else .ok (.posted payload)

/-! ## `src/controllers/groups.js` -/

/-- The collaborators of `groupsController.details`, as parameters. -/
structure GroupsEnv where
  /-- The method `String.prototype.toLowerCase`. -/
  toLowerCase : String → String
  /-- The setting `relative_path`. -/
  relativePath : String
  /-- The lookup `groups.getGroupNameByGroupSlug(slug)`; `none` for no name. -/
  getGroupNameByGroupSlug : String → Option String
  /-- The test `groups.exists(groupName)`. -/
  groupExists : String → Bool
  /-- The check `privileges.admin.can('admin:groups', uid)`. -/
  canAdminGroups : Val → Bool
  /-- The test `user.isGlobalModerator(uid)`. -/
  isGlobalModerator : Val → Bool
  /-- The test `groups.isHidden(groupName)`. -/
  isHidden : String → Bool
  /-- The test `groups.isMember(uid, groupName)`. -/
  isMember : Val → String → Bool
  /-- The test `groups.isInvited(uid, groupName)`. -/
  isInvited : Val → String → Bool
  /-- The group data `groups.get(groupName, options)`, if any. -/
  getGroup : String → Val → Option Rec
  /-- The posts `groups.getLatestMemberPosts(groupName, 10, uid)`. -/
  getLatestMemberPosts : String → Val → Val

/-- The request of `groupsController.details`, as far as it is read. -/
structure DetailsRequest where
  /-- The parameter `req.params.slug`. -/
  slug : String
  /-- The caller `req.uid`. -/
  uid : Val
  /-- The flag `res.locals.isAPI`. -/
  isAPI : Bool

/-- How a controller answers: a redirect, a hand-over to `next`, or a render of
the group page with its data. -/
inductive Response where
  | redirect (url : String)
  | next
  | render (template : String) (group : Rec) (posts : Val) (isAdmin isGlobalMod : Bool)
  deriving DecidableEq, Repr

/-- The function `normalizeSlug(req, res)` (lines 71-82): the lower-case slug,
or `none` (the `null` of line 79) when the answer is a redirect. -/
def normalizeSlug (g : GroupsEnv) (req : DetailsRequest) : Option String :=
  let lowercaseSlug := g.toLowerCase req.slug
  if req.slug ≠ lowercaseSlug then
    if req.isAPI then some lowercaseSlug else none
  else some lowercaseSlug

/-- The function `checkGroupAccess(groupName, options)` (lines 85-99). -/
def checkGroupAccess (g : GroupsEnv) (groupName : String) (uid : Val)
    (isAdmin isGlobalMod : Bool) : Bool :=
  let isHidden := g.isHidden groupName
  if !isHidden || isAdmin || isGlobalMod then Bool.true
  else g.isMember uid groupName || g.isInvited uid groupName

/-- The function `groupsController.details(req, res, next)` (lines 116-170).
After `normalizeSlug` the slug in `req.params` is the lower-case one on every
path that goes on. -/
def details (g : GroupsEnv) (req : DetailsRequest) : Response :=
  match normalizeSlug g req with
  | none => .redirect (g.relativePath ++ "/groups/" ++ g.toLowerCase req.slug)
  | some normalizedSlug =>
    match g.getGroupNameByGroupSlug normalizedSlug with
    | none => .next
    | some groupName =>
      if groupName = "" then .next
      else if !g.groupExists groupName then .next
      else
        let isAdmin := g.canAdminGroups req.uid
        let isGlobalMod := g.isGlobalModerator req.uid
        let hasAccess := checkGroupAccess g groupName req.uid isAdmin isGlobalMod
        if !hasAccess then .next
        else
          match g.getGroup groupName req.uid with
          | none => .next
          | some groupData =>
            .render "groups/details" groupData (g.getLatestMemberPosts groupName req.uid)
              isAdmin isGlobalMod

/-- The method `xs.slice(start, end)`: a negative bound counts from the end, and
both bounds are cut to the length. -/
def jsSlice {α : Type} (l : List α) (start stop : Int) : List α :=
  let len : Int := l.length
  let k := if start < 0 then max (len + start) 0 else min start len
  let final := if stop < 0 then max (len + stop) 0 else min stop len
  (l.drop k.toNat).take (max (final - k) 0).toNat

/-- The value `Math.ceil(a / b)` for a count `a` and a positive page size `b`. -/
def ceilDiv (a b : Nat) : Nat := (a + b - 1) / b

/-- The options object handed to `groups.search` (lines 49-55). -/
structure SearchOptions where
  /-- The sort order. -/
  sort : Val
  /-- Whether hidden groups are left out. -/
  filterHidden : Bool
  /-- Whether members are listed. -/
  showMembers : Bool
  /-- Whether ephemeral groups are left out. -/
  hideEphemeralGroups : Bool
  /-- The groups to leave out. -/
  excludeGroups : List Val

/-- The collaborators of `groupsController.list` and `getGroups`, as
parameters. -/
structure GroupsListEnv where
  /-- The test `user.isAdministrator(uid)`. -/
  isAdministrator : Val → Bool
  /-- The check `privileges.global.can('group:create', uid)`. -/
  canCreateGroups : Val → Bool
  /-- The search `groups.search(query, options)`. -/
  search : Val → SearchOptions → List Rec
  /-- The read `groups.getGroupsBySort(sort, start, stop)`. -/
  getGroupsBySort : Val → Int → Int → List Rec
  /-- The count `groups.getGroupCountBySort(sort)`. -/
  getGroupCountBySort : Val → Nat

/-- The request of `groupsController.list`, as far as it is read. -/
structure ListRequest where
  /-- The caller `req.uid`. -/
  uid : Val
  /-- The parameter `req.query.query`. -/
  query : Val
  /-- The parameter `req.query.page`. -/
  page : Val
  /-- The parameter `req.query.sort`. -/
  sort : Val
  /-- The parameter `req.query.filterHidden`. -/
  filterHidden : Val
  /-- The parameter `req.query.showMembers`. -/
  showMembers : Val
  /-- The parameter `req.query.hideEphemeralGroups`. -/
  hideEphemeralGroups : Val
  /-- The parameter `req.query.excludeGroups` when it is an array. -/
  excludeGroups : Option (List Val)

/-- The options of the call `groups.search` in `getGroups` (lines 48-55). -/
def searchOptions (g : GroupsListEnv) (req : ListRequest) (sort : Val) : SearchOptions where
  sort := sort
  filterHidden := req.filterHidden == Val.str "true" || !g.isAdministrator req.uid
  showMembers := req.showMembers == Val.str "true"
  hideEphemeralGroups := req.hideEphemeralGroups == Val.str "true"
  excludeGroups := req.excludeGroups.getD []

/-- The function `getGroups(req, sort, page)` (lines 42-68): the groups of the
page and the page count. -/
def getGroups (g : GroupsListEnv) (req : ListRequest) (sort : Val) (page : Int) :
    List Rec × Nat :=
  let resultsPerPage : Nat := if req.query.truthy then 100 else 15
  let start : Int := max 0 (page - 1) * resultsPerPage
  let stop : Int := start + resultsPerPage - 1
  if req.query.truthy then
    let groupData := g.search req.query (searchOptions g req sort)
    let pageCount := ceilDiv groupData.length resultsPerPage
    (jsSlice groupData start (stop + 1), pageCount)
  else
    let groupData := g.getGroupsBySort sort start stop
    let groupCount := g.getGroupCountBySort sort
    (groupData, ceilDiv groupCount resultsPerPage)

/-- The page number `parseInt(req.query.page, 10) || 1` (line 19). -/
def pageOf (page : Val) : Int :=
  match jsOr (parseInt page) (Val.num 1) with
  | .prim (.num n) => n
  | _ => 1

/-- What `groupsController.list` renders (lines 32-39), as far as it is
computed here. -/
structure GroupsPage where
  /-- The groups of the page. -/
  groups : List Rec
  /-- Whether the caller may create groups. -/
  allowGroupCreation : Bool
  /-- The escaped sort order. -/
  sort : String
  /-- The page number handed to the pagination. -/
  page : Int
  /-- The page count handed to the pagination. -/
  pageCount : Nat

/-- The function `groupsController.list(req, res)` (lines 17-40). -/
def list (g : GroupsListEnv) (req : ListRequest) : GroupsPage :=
  let sort := jsOr req.sort (Val.str "alpha")
  let page := pageOf req.page
  let allowGroupCreation := g.canCreateGroups req.uid
  let result := getGroups g req sort page
  { groups := result.1, allowGroupCreation := allowGroupCreation,
    sort := escape sort.toJsString, page := page, pageCount := result.2 }

/-! ## `src/controllers/admin.js` -/

/-- How `adminController.routeIndex` answers. -/
inductive AdminResponse where
  | dashboard
  | redirect (route : String)
  | notAllowed
  deriving DecidableEq, Repr

/-- The table `redirects` of `routeIndex` (lines 43-51), in the order of its
entries. -/
def redirects : List (String × String) :=
  [("admin:categories", "admin/manage/categories"),
    ("admin:privileges", "admin/manage/privileges"),
    ("admin:users", "admin/manage/users"),
    ("admin:groups", "admin/manage/groups"),
    ("admin:admins-mods", "admin/manage/admins-mods"),
    ("admin:tags", "admin/manage/tags"),
    ("admin:settings", "admin/settings/general")]

/-- The loop of lines 53-57: the route of the first entry whose privilege is
held. -/
def firstRedirect (privilegeSet : Rec) : List (String × String) → Option String
  | [] => none
  | (privilege, route) :: rest =>
    if (getField privilegeSet privilege).truthy then some route
    else firstRedirect privilegeSet rest

/-- The function `adminController.routeIndex(req, res)` (lines 36-60) on the
privilege set of the caller. -/
def routeIndex (privilegeSet : Rec) : AdminResponse :=
  if (getField privilegeSet "superadmin").truthy ||
      (getField privilegeSet "admin:dashboard").truthy then .dashboard
  else
    match firstRedirect privilegeSet redirects with
    | some route => .redirect route
    | none => .notAllowed

/-! ## Sample data -/

/-- A sample environment: user 7 exists, post 10 sits in topic 100 ("Hello"),
post 11 has no topic. -/
def sampleEnv : Env where
  toISOString := fun v => Val.str ("ISO(" ++ v.toJsString ++ ")")
  getReports := fun v => Val.arr [[("flagId", match v with
    | .prim p => p
    | _ => .null)]]
  postTid := fun pid =>
    if pid = Val.num 10 then Val.num 100 else Val.undefined
  topicTitle := fun tid => if tid = Val.num 100 then some (Val.str "Hello") else none
  userView := fun uid =>
    if uid = Val.num 7 then some [("uid", .num 7), ("username", .str "mod")] else none
  parseRaw := fun text => "<p>" ++ text ++ "</p>"

/-- A sample store: user 1 has three bans and one unban, all with records;
user 3 has one ban whose record is gone; user 1 has two notes in the index,
of which note 2 has lost its body. -/
def sampleStore : Store where
  sortedSets := fun k =>
    if k = "uid:1:bans:timestamp" then
      [("uid:1:ban:100", 100), ("uid:1:ban:300", 300), ("uid:1:ban:200", 200)]
    else if k = "uid:1:unbans:timestamp" then [("uid:1:unban:150", 150)]
    else if k = "uid:3:bans:timestamp" then [("uid:3:ban:50", 50)]
    else if k = "uid:1:moderation:notes" then [("1", 1), ("2", 2)]
    else if k = "flags:byTargetUid:1" then [("5", 50), ("6", 60)]
    else []
  objects := fun k =>
    if k = "uid:1:ban:300" then
      some [("fromUid", Val.num 7), ("expire", Val.str "400"), ("timestamp", Val.num 300),
        ("reason", Val.str "<b>spam</b>")]
    else if k = "uid:1:ban:200" then
      some [("fromUid", Val.num 8), ("expire", Val.str "0"), ("timestamp", Val.num 200),
        ("reason", Val.str "")]
    else if k = "uid:1:ban:100" then some [("fromUid", Val.num 7), ("timestamp", Val.num 100)]
    else if k = "uid:1:unban:150" then some [("fromUid", Val.num 7), ("timestamp", Val.num 150)]
    else if k = "uid:1:moderation:note:1" then
      some [("uid", Val.num 7), ("note", Val.str "x<y"), ("timestamp", Val.num 1)]
    else if k = "flag:5" then
      some [("flagId", Val.num 5), ("type", Val.str "post"), ("targetId", Val.str "10"),
        ("datetime", Val.num 50)]
    else if k = "flag:6" then
      some [("flagId", Val.num 6), ("type", Val.str "post"), ("targetId", Val.str "11"),
        ("datetime", Val.num 60)]
    else none



/-- A sample flag on a remote post, whose id is a URI. -/
def sampleRemoteFlag : Rec :=
  [("flagId", Val.num 9), ("type", Val.str "post"),
    ("targetId", Val.str "https://remote.example/post/1"), ("datetime", Val.num 90)]

/-- A sample environment in which the remote post is known under its own id, in
topic 100, and under no other id. -/
def sampleRemoteEnv : Env :=
  { sampleEnv with
    postTid := fun pid =>
      if pid = Val.str "https://remote.example/post/1" then Val.num 100 else Val.undefined }

/-- The keys of the three ban records of user 1, most recent first. -/
def sampleBanKeys : List String := ["uid:1:ban:300", "uid:1:ban:200", "uid:1:ban:100"]

/-- The cid of the sample topic 100. -/
def sampleTopicCid (tid : Val) : Option Val :=
  if tid = Val.num 100 then some (Val.num 5) else none

/-- A sample of the collaborators of `create`: the time is 1000, only user 1 may
schedule, nothing is blacklisted or queued. -/
def sampleApi : TopicsApi where
  now := 1000
  reqObject := fun _ _ => Val.undefined
  can := fun _ _ uid => uid == Val.num 1
  blacklisted := fun _ => false
  shouldQueue := fun _ _ => false

/-- A sample of the collaborators of `groupsController.details`: the hidden
group "Staff" under the slug "staff", of which user 1 is a member. -/
def sampleGroups : GroupsEnv where
  toLowerCase := fun slug => if slug = "Staff" then "staff" else slug
  relativePath := ""
  getGroupNameByGroupSlug := fun slug => if slug = "staff" then some "Staff" else none
  groupExists := fun name => name == "Staff"
  canAdminGroups := fun _ => false
  isGlobalModerator := fun _ => false
  isHidden := fun _ => true
  isMember := fun uid _ => uid == Val.num 1
  isInvited := fun _ _ => false
  getGroup := fun _ _ => some [("name", Val.str "Staff")]
  getLatestMemberPosts := fun _ _ => Val.undefined

/-- A sample of the collaborators of `getGroups`: every search finds the 250
groups named 0 to 249. -/
def sampleGroupsList : GroupsListEnv where
  isAdministrator := fun _ => false
  canCreateGroups := fun _ => false
  search := fun _ _ => (List.range 250).map (fun i => [("name", Val.num i)])
  getGroupsBySort := fun _ _ _ => []
  getGroupCountBySort := fun _ => 0

/-- A sample search request for the given page. -/
def sampleListRequest (page : Val) : ListRequest where
  uid := Val.num 1
  query := Val.str "a"
  page := page
  sort := Val.undefined
  filterHidden := Val.undefined
  showMembers := Val.undefined
  hideEphemeralGroups := Val.undefined
  excludeGroups := none

/-! ## Basic facts -/

theorem getField_setField_same (r : Rec) (k : String) (v : Val) :
    getField (setField r k v) k = v := by
  induction r with
  | nil => simp [getField, setField]
  | cons p r ih =>
    obtain ⟨k₀, v₀⟩ := p
    by_cases h : k₀ = k <;> simp [getField, setField, h, ih]

theorem getField_setField_ne (r : Rec) (k k' : String) (v : Val) (h : k' ≠ k) :
    getField (setField r k v) k' = getField r k' := by
  induction r with
  | nil => simp [getField, setField, Ne.symm h]
  | cons p r ih =>
    obtain ⟨k₀, v₀⟩ := p
    by_cases h₀ : k₀ = k
    · subst h₀; simp [getField, setField, Ne.symm h]
    · by_cases h₁ : k₀ = k'
      · subst h₁; simp [getField, setField, h₀]
      · simp [getField, setField, h₀, h₁, ih]

theorem key_suffix_ne (a b c : String) (h : b.data ≠ c.data) : a ++ b ≠ a ++ c := by
  intro h'
  apply h
  have := congrArg String.data h'
  simpa using this

theorem bansKey_ne_unbansKey (uid : Val) : bansKey uid ≠ unbansKey uid :=
  key_suffix_ne _ _ _ (by decide)

theorem mapExcept_ok {α β : Type} (f : α → Except JsError β) (g : α → β) (l : List α)
    (h : ∀ a ∈ l, f a = .ok (g a)) : mapExcept f l = .ok (l.map g) := by
  induction l with
  | nil => rfl
  | cons a l ih =>
    have ha := h a (List.mem_cons_self a l)
    have hl := ih (fun x hx => h x (List.mem_cons_of_mem a hx))
    simp [mapExcept, ha, hl]

theorem mapExcept_error {α β : Type} (f : α → Except JsError β) (e : JsError) (l : List α)
    (hf : ∀ a e', f a = .error e' → e' = e) (h : ∃ a ∈ l, f a = .error e) :
    mapExcept f l = .error e := by
  induction l with
  | nil => simp at h
  | cons a l ih =>
    unfold mapExcept
    cases hfa : f a with
    | error e' => simp [hf a e' hfa]
    | ok b =>
      obtain ⟨x, hx, hxe⟩ := h
      have hxl : x ∈ l := by
        rcases List.mem_cons.mp hx with rfl | hxl
        · rw [hfa] at hxe; cases hxe
        · exact hxl
      simp [ih ⟨x, hxl, hxe⟩]

theorem length_mapIdxFrom {α β : Type} (f : Nat → α → β) (i : Nat) (l : List α) :
    (mapIdxFrom f i l).length = l.length := by
  induction l generalizing i with
  | nil => rfl
  | cons a l ih => simp [mapIdxFrom, ih]

theorem getElem?_mapIdxFrom {α β : Type} (f : Nat → α → β) (i j : Nat) (l : List α) :
    (mapIdxFrom f i l)[j]? = (l[j]?).map (f (i + j)) := by
  induction l generalizing i j with
  | nil => simp [mapIdxFrom]
  | cons a l ih =>
    cases j with
    | zero => simp [mapIdxFrom]
    | succ j => simp [mapIdxFrom, ih, Nat.add_assoc, Nat.add_comm 1 j]

theorem sliceRange_zero_zero {α : Type} (l : List α) : sliceRange l 0 0 = l.take 1 := by
  simp [sliceRange]

theorem length_sliceRange_top {α : Type} (l : List α) :
    (sliceRange l 0 19).length = min 20 l.length := by
  simp [sliceRange]

theorem revRange_single_nil (s : Store) (key : String) (start stop : Int)
    (h : s.sortedSets key = []) : s.getSortedSetRevRange [key] start stop = [] := by
  simp [Store.getSortedSetRevRange, Store.getSortedSetRevRangeWithScores, h, sliceRange]

theorem revRange_top (s : Store) (key : String) (h : s.sortedSets key ≠ []) :
    ∃ e ∈ s.sortedSets key, (∀ e' ∈ s.sortedSets key, e'.2 ≤ e.2) ∧
      s.getSortedSetRevRange [key] 0 0 = [e.1] := by
  have hperm := List.perm_insertionSort revOrder (s.sortedSets key)
  have hsorted := List.sorted_insertionSort revOrder (s.sortedSets key)
  cases hl : (s.sortedSets key).insertionSort revOrder with
  | nil =>
    rw [hl] at hperm
    exact absurd hperm.symm.eq_nil h
  | cons e t =>
    rw [hl] at hperm hsorted
    have hmem : ∀ x, x ∈ s.sortedSets key ↔ x ∈ e :: t := fun x => hperm.mem_iff.symm
    refine ⟨e, (hmem e).mpr (List.mem_cons_self e t), ?_, ?_⟩
    · intro e' he'
      rcases List.mem_cons.mp ((hmem e').mp he') with rfl | ht
      · exact Int.le_refl _
      · exact List.rel_of_sorted_cons hsorted e' ht
    · simp [Store.getSortedSetRevRange, Store.getSortedSetRevRangeWithScores, hl,
        sliceRange_zero_zero]

theorem getLatestBanInfo_no_ban_info_iff (env : Env) (s : Store) (uid : Val) :
    getLatestBanInfo env s uid = .error (.error "no-ban-info") ↔
      s.sortedSets (bansKey uid) = [] := by
  constructor
  · intro h
    by_contra hne
    obtain ⟨e, -, -, hr⟩ := revRange_top s (bansKey uid) hne
    unfold getLatestBanInfo at h
    rw [hr] at h
    simp only at h
    cases ho : s.getObject e.1 <;> rw [ho] at h <;> simp at h
  · intro h
    unfold getLatestBanInfo
    rw [revRange_single_nil s _ 0 0 h]

/-- C1: a uid whose ban index `uid:<uid>:bans:timestamp` holds no record makes
`getLatestBanInfo` fail with the error `no-ban-info`; no record is returned, and
the error differs from the `TypeError` of a missing record body. -/
theorem getLatestBanInfo_empty_index (env : Env) (s : Store) (uid : Val)
    (h : s.sortedSets (bansKey uid) = []) :
    getLatestBanInfo env s uid = .error (.error "no-ban-info") ∧
      (∀ r, getLatestBanInfo env s uid ≠ .ok r) ∧
      getLatestBanInfo env s uid ≠ .error .typeError := by
  have hr : getLatestBanInfo env s uid = .error (.error "no-ban-info") :=
    (getLatestBanInfo_no_ban_info_iff env s uid).mpr h
  rw [hr]
  refine ⟨rfl, ?_, ?_⟩
  · intro r hc; cases hc
  · intro hc; cases hc

theorem getLatestBanInfo_empty_index_witness :
    sampleStore.sortedSets (bansKey (Val.num 2)) = [] ∧
      getLatestBanInfo sampleEnv sampleStore (Val.num 2) = .error (.error "no-ban-info") :=
  ⟨by decide, (getLatestBanInfo_empty_index sampleEnv sampleStore (Val.num 2) (by decide)).1⟩

theorem getLatestBanInfo_frame (env : Env) (s s' : Store) (uid : Val)
    (hidx : s'.sortedSets (bansKey uid) = s.sortedSets (bansKey uid))
    (hobj : s'.objects = s.objects) :
    getLatestBanInfo env s' uid = getLatestBanInfo env s uid := by
  simp [getLatestBanInfo, Store.getSortedSetRevRange, Store.getSortedSetRevRangeWithScores,
    Store.getObject, hidx, hobj]

/-- For a uid whose ban index is not empty and whose entries of highest score
have their records, `getLatestBanInfo` returns the record built from an entry of
highest score of the index: the same uid, that record's timestamp,
`banned_until` and `expiry` both the integer parse of its `expire`, and its
escaped reason. No clock is read, and an unban recorded afterwards in
`uid:<uid>:unbans:timestamp` leaves the result unchanged. Older entries may have
lost their records. -/
theorem getLatestBanInfo_latest (env : Env) (s : Store) (uid : Val)
    (hne : s.sortedSets (bansKey uid) ≠ [])
    (hobj : ∀ e ∈ s.sortedSets (bansKey uid),
      (∀ e' ∈ s.sortedSets (bansKey uid), e'.2 ≤ e.2) → s.objects e.1 ≠ none) :
    ∃ e ∈ s.sortedSets (bansKey uid), (∀ e' ∈ s.sortedSets (bansKey uid), e'.2 ≤ e.2) ∧
      ∃ banInfo, s.objects e.1 = some banInfo ∧
        getLatestBanInfo env s uid = .ok
          [("uid", uid),
            ("timestamp", getField banInfo "timestamp"),
            ("banned_until", parseInt (getField banInfo "expire")),
            ("expiry", parseInt (getField banInfo "expire")),
            ("banned_until_readable", env.toISOString (parseInt (getField banInfo "expire"))),
            ("expiry_readable", env.toISOString (parseInt (getField banInfo "expire"))),
            ("reason",
              Val.str (escape (jsOr (getField banInfo "reason") (Val.str "")).toJsString))] ∧
        ∀ (score : Int) (member : String),
          getLatestBanInfo env (s.sortedSetAdd (unbansKey uid) score member) uid =
            getLatestBanInfo env s uid := by
  obtain ⟨e, he, hmax, hr⟩ := revRange_top s (bansKey uid) hne
  refine ⟨e, he, hmax, ?_⟩
  cases ho : s.objects e.1 with
  | none => exact absurd ho (hobj e he hmax)
  | some banInfo =>
    refine ⟨banInfo, rfl, ?_, ?_⟩
    · simp [getLatestBanInfo, hr, Store.getObject, ho]
    · intro score member
      apply getLatestBanInfo_frame
      · simp [Store.sortedSetAdd, bansKey_ne_unbansKey]
      · rfl

theorem getLatestBanInfo_latest_witness :
    ∃ e ∈ sampleStore.sortedSets (bansKey (Val.num 1)),
      (∀ e' ∈ sampleStore.sortedSets (bansKey (Val.num 1)), e'.2 ≤ e.2) ∧
      ∃ banInfo, sampleStore.objects e.1 = some banInfo ∧
        getLatestBanInfo sampleEnv sampleStore (Val.num 1) = .ok
          [("uid", Val.num 1),
            ("timestamp", getField banInfo "timestamp"),
            ("banned_until", parseInt (getField banInfo "expire")),
            ("expiry", parseInt (getField banInfo "expire")),
            ("banned_until_readable",
              sampleEnv.toISOString (parseInt (getField banInfo "expire"))),
            ("expiry_readable", sampleEnv.toISOString (parseInt (getField banInfo "expire"))),
            ("reason",
              Val.str (escape (jsOr (getField banInfo "reason") (Val.str "")).toJsString))] ∧
        ∀ (score : Int) (member : String),
          getLatestBanInfo sampleEnv
              (sampleStore.sortedSetAdd (unbansKey (Val.num 1)) score member) (Val.num 1) =
            getLatestBanInfo sampleEnv sampleStore (Val.num 1) :=
  getLatestBanInfo_latest sampleEnv sampleStore (Val.num 1) (by decide) (by decide)

/-- When no entry of highest score of a non-empty ban index has its record,
`getLatestBanInfo` throws a `TypeError`: line 25 reads `banInfo.expire` on the
`null` that `db.getObject` returned. -/
theorem getLatestBanInfo_error_of_missing (env : Env) (s : Store) (uid : Val)
    (hne : s.sortedSets (bansKey uid) ≠ [])
    (hmissing : ∀ e ∈ s.sortedSets (bansKey uid),
      (∀ e' ∈ s.sortedSets (bansKey uid), e'.2 ≤ e.2) → s.objects e.1 = none) :
    getLatestBanInfo env s uid = .error .typeError := by
  obtain ⟨e, he, hmax, hr⟩ := revRange_top s (bansKey uid) hne
  simp [getLatestBanInfo, hr, Store.getObject, hmissing e he hmax]

/-- C2: for user 3 of the sample store, whose ban index holds one entry whose
record is gone, `getLatestBanInfo` throws a `TypeError` at the read
`banInfo.expire` of line 25 and returns no record, where the record built from
that entry is called for. -/
theorem getLatestBanInfo_missing_record_throws :
    sampleStore.sortedSets (bansKey (Val.num 3)) = [("uid:3:ban:50", 50)] ∧
      sampleStore.objects "uid:3:ban:50" = none ∧
      getLatestBanInfo sampleEnv sampleStore (Val.num 3) = .error .typeError ∧
      ∀ r, getLatestBanInfo sampleEnv sampleStore (Val.num 3) ≠ .ok r := by
  refine ⟨by decide, by decide, by decide, ?_⟩
  intro r
  have h : getLatestBanInfo sampleEnv sampleStore (Val.num 3) = .error .typeError := by decide
  rw [h]
  intro hc
  cases hc


/-! ## Ban and mute formatting -/

theorem elemAt_append_length (pre : List Val) (x : Val) (rest : List Val) :
    elemAt (pre ++ x :: rest) pre.length = x := by
  induction pre with
  | nil => rfl
  | cons a pre ih => simpa [elemAt] using ih

theorem mapExcept_fromUidOf (recs : List Rec) :
    mapExcept fromUidOf (recs.map some) =
      .ok (recs.map (fun r => getField r "fromUid")) := by
  induction recs with
  | nil => rfl
  | cons r recs ih => simp [mapExcept, fromUidOf, ih]

theorem mapIdxExcept_formatBanObj (env : Env) (d : Val) (pre : List Val) (recs : List Rec) :
    mapIdxExcept
        (formatBanObj env
          (pre ++ getUsersFields env (recs.map (fun r => getField r "fromUid"))) d)
        pre.length (recs.map some) =
      .ok (recs.map (fun r => formatRecord env d (userValue env (getField r "fromUid")) r)) := by
  induction recs generalizing pre with
  | nil => rfl
  | cons r recs ih =>
    have h := ih (pre ++ [userValue env (getField r "fromUid")])
    simp only [List.append_assoc, List.singleton_append, List.length_append,
      List.length_singleton] at h
    simp only [List.map_cons, getUsersFields, mapIdxExcept, formatBanObj,
      elemAt_append_length] at h ⊢
    rw [h]

/-- When every key has a record, `formatBanMuteData` returns the records in key
order, each formatted with the identity of its own `fromUid`. -/
theorem formatBanMuteData_ok (env : Env) (s : Store) (keys : List String) (d : Val)
    (recs : List Rec) (h : s.getObjects keys = recs.map some) :
    formatBanMuteData env s keys d =
      .ok (recs.map (fun r => formatRecord env d (userValue env (getField r "fromUid")) r)) := by
  unfold formatBanMuteData
  simp only [h, mapExcept_fromUidOf]
  exact mapIdxExcept_formatBanObj env d [] recs

/-- A key without a record makes `formatBanMuteData` throw a `TypeError`. -/
theorem formatBanMuteData_error (env : Env) (s : Store) (keys : List String) (d : Val)
    (h : ∃ k ∈ keys, s.objects k = none) :
    formatBanMuteData env s keys d = .error .typeError := by
  unfold formatBanMuteData
  have herr : mapExcept fromUidOf (s.getObjects keys) = .error .typeError := by
    apply mapExcept_error
    · intro a e' ha
      cases a with
      | none => simpa [fromUidOf] using ha.symm
      | some r => simp [fromUidOf] at ha
    · obtain ⟨k, hk, hnone⟩ := h
      exact ⟨none, by simpa [Store.getObjects, Store.getObject] using ⟨k, hk, hnone⟩, rfl⟩
  simp only [herr]

theorem getObjects_eq_map_some (s : Store) (keys : List String)
    (h : ∀ k ∈ keys, s.objects k ≠ none) :
    ∃ recs : List Rec, s.getObjects keys = recs.map some ∧ recs.length = keys.length ∧
      ∀ (i : Nat) (r : Rec), recs[i]? = some r ↔ (keys[i]?).bind s.objects = some r := by
  induction keys with
  | nil => exact ⟨[], rfl, rfl, by simp⟩
  | cons k keys ih =>
    obtain ⟨recs, hrecs, hlen, hget⟩ := ih (fun x hx => h x (List.mem_cons_of_mem k hx))
    cases ho : s.objects k with
    | none => exact absurd ho (h k (List.mem_cons_self k keys))
    | some r =>
      refine ⟨r :: recs, ?_, by simp [hlen], ?_⟩
      · simp [Store.getObjects, Store.getObject, ho] at hrecs ⊢
        exact hrecs
      · intro i r'
        cases i with
        | zero => simp [ho]
        | succ i => simpa using hget i r'

theorem replaceAll_ne_nil (c : Char) (rep : String) (cs : List Char) (hrep : rep.data ≠ [])
    (h : cs ≠ []) : replaceAll c rep cs ≠ [] := by
  cases cs with
  | nil => exact absurd rfl h
  | cons x cs =>
    by_cases hx : x = c
    · simp [replaceAll, hx, hrep]
    · simp [replaceAll, hx]

theorem escape_ne_empty (t : String) (h : t ≠ "") : escape t ≠ "" := by
  have hd : t.data ≠ [] := fun hd => h (String.ext hd)
  intro he
  have hdata := congrArg String.data he
  simp only [escape] at hdata
  revert hdata
  repeat (apply replaceAll_ne_nil _ _ _ (by decide))
  exact hd

theorem formatRecord_reason (env : Env) (d user : Val) (r : Rec) :
    getField (formatRecord env d user r) "reason" =
      jsOr (Val.str (escape (jsOr (getField r "reason") (Val.str "")).toJsString)) d := by
  simp [formatRecord, getField_setField_same, getField_setField_ne]

theorem formatRecord_user (env : Env) (d user : Val) (r : Rec) :
    getField (formatRecord env d user r) "user" = user := by
  simp [formatRecord, getField_setField_same, getField_setField_ne]

theorem formatRecord_until (env : Env) (d user : Val) (r : Rec) :
    getField (formatRecord env d user r) "until" = parseInt (getField r "expire") := by
  simp [formatRecord, getField_setField_same, getField_setField_ne]

theorem formatRecord_other (env : Env) (d user : Val) (r : Rec) (k : String)
    (hk : k ∉ ["user", "until", "untilISO", "timestampISO", "reason"]) :
    getField (formatRecord env d user r) k = getField r k := by
  simp at hk
  simp [formatRecord, getField_setField_ne, hk]

theorem jsOr_falsy (a b : Val) (h : a.truthy = false) : jsOr a b = b := by
  simp [jsOr, h]

theorem jsOr_truthy (a b : Val) (h : a.truthy = true) : jsOr a b = a := by
  simp [jsOr, h]

/-- When every key has a record, `formatBanMuteData` succeeds with one record per
key, and the record at position `i` is the record of key `i`, formatted with the
identity of its own `fromUid`. -/
theorem formatBanMuteData_spec (env : Env) (s : Store) (keys : List String) (d : Val)
    (hall : ∀ k ∈ keys, s.objects k ≠ none) :
    ∃ out, formatBanMuteData env s keys d = .ok out ∧ out.length = keys.length ∧
      ∀ (i : Nat) (k : String) (r : Rec), keys[i]? = some k → s.objects k = some r →
        out[i]? = some (formatRecord env d (userValue env (getField r "fromUid")) r) := by
  obtain ⟨recs, hrecs, hlen, hget⟩ := getObjects_eq_map_some s keys hall
  refine ⟨_, formatBanMuteData_ok env s keys d recs hrecs, by simpa using hlen, ?_⟩
  intro i k r hk hr
  have hri : recs[i]? = some r := (hget i r).mpr (by simp [hk, hr])
  simp [hri]

/-- C6 (as amended): for keys whose records all exist, a record whose reason is a
non-empty string gets as `reason` the `validator.escape` form of that reason;
this escape also rewrites the slash, so `<b>spam</b>` yields
`&lt;b&gt;spam&lt;&#x2F;b&gt;`. -/
theorem formatBanMuteData_reason_escaped (env : Env) (s : Store) (keys : List String)
    (noReasonLangKey : Val) (hall : ∀ k ∈ keys, s.objects k ≠ none) :
    (∃ out, formatBanMuteData env s keys noReasonLangKey = .ok out ∧
      out.length = keys.length ∧
      ∀ (i : Nat) (k : String) (r : Rec) (t : String), keys[i]? = some k →
        s.objects k = some r → getField r "reason" = Val.str t → t ≠ "" →
        (out[i]?).map (fun r' => getField r' "reason") = some (Val.str (escape t))) ∧
      escape "<b>spam</b>" = "&lt;b&gt;spam&lt;&#x2F;b&gt;" := by
  refine ⟨?_, by decide⟩
  obtain ⟨out, hout, hlen, hget⟩ := formatBanMuteData_spec env s keys noReasonLangKey hall
  refine ⟨out, hout, hlen, ?_⟩
  intro i k r t hk hr hreason ht
  rw [hget i k r hk hr]
  have hne := escape_ne_empty t ht
  simp [formatRecord_reason, hreason, jsOr, Val.truthy, Prim.truthy, Val.toJsString,
    Prim.toJsString, ht, hne]

/-- C7: for keys whose records all exist, a record whose reason is empty or
missing (any falsy value) gets as `reason` exactly the caller's default
`noReasonLangKey`, and a record whose reason is a non-empty string gets its own
escaped reason, whatever the default is. -/
theorem formatBanMuteData_default_reason (env : Env) (s : Store) (keys : List String)
    (noReasonLangKey : Val) (hall : ∀ k ∈ keys, s.objects k ≠ none) :
    ∃ out, formatBanMuteData env s keys noReasonLangKey = .ok out ∧
      out.length = keys.length ∧
      ∀ (i : Nat) (k : String) (r : Rec), keys[i]? = some k → s.objects k = some r →
        ((getField r "reason").truthy = false →
          (out[i]?).map (fun r' => getField r' "reason") = some noReasonLangKey) ∧
        (∀ t : String, getField r "reason" = Val.str t → t ≠ "" →
          (out[i]?).map (fun r' => getField r' "reason") = some (Val.str (escape t))) := by
  obtain ⟨out, hout, hlen, hget⟩ := formatBanMuteData_spec env s keys noReasonLangKey hall
  refine ⟨out, hout, hlen, ?_⟩
  intro i k r hk hr
  rw [hget i k r hk hr]
  constructor
  · intro hfalsy
    have hempty : escape (Val.str "").toJsString = "" := by decide
    rw [Option.map_some', formatRecord_reason, jsOr_falsy _ _ hfalsy, hempty,
      jsOr_falsy _ _ (by decide)]
  · intro t hreason ht
    have hne := escape_ne_empty t ht
    simp [formatRecord_reason, hreason, jsOr, Val.truthy, Prim.truthy, Val.toJsString,
      Prim.toJsString, ht, hne]

/-- C9: for keys whose records all exist, `formatBanMuteData` returns one record
per key in key order; record `i` keeps the fields of the stored record `i` and
carries as `user` the identity looked up for its own `fromUid` (the value
`undefined` when that user does not exist, without an error) and as `until` the
integer parse of its `expire`. -/
theorem formatBanMuteData_aligned (env : Env) (s : Store) (keys : List String)
    (noReasonLangKey : Val) (hall : ∀ k ∈ keys, s.objects k ≠ none) :
    ∃ out, formatBanMuteData env s keys noReasonLangKey = .ok out ∧
      out.length = keys.length ∧
      ∀ (i : Nat) (k : String) (r : Rec), keys[i]? = some k → s.objects k = some r →
        ∃ r', out[i]? = some r' ∧
          getField r' "user" = userValue env (getField r "fromUid") ∧
          (env.userView (getField r "fromUid") = none → getField r' "user" = Val.undefined) ∧
          getField r' "until" = parseInt (getField r "expire") ∧
          ∀ f, f ∉ ["user", "until", "untilISO", "timestampISO", "reason"] →
            getField r' f = getField r f := by
  obtain ⟨out, hout, hlen, hget⟩ := formatBanMuteData_spec env s keys noReasonLangKey hall
  refine ⟨out, hout, hlen, ?_⟩
  intro i k r hk hr
  refine ⟨_, hget i k r hk hr, formatRecord_user _ _ _ _, ?_, formatRecord_until _ _ _ _,
    fun f hf => formatRecord_other _ _ _ _ f hf⟩
  intro hnone
  simp [formatRecord_user, userValue, hnone]

/-! ## Flag enrichment -/

theorem mapExcept_reportsOf (env : Env) (flags : List Rec) :
    mapExcept (reportsOf env) (flags.map some) =
      .ok (flags.map (fun r => env.getReports (getField r "flagId"))) := by
  induction flags with
  | nil => rfl
  | cons r flags ih => simp [mapExcept, reportsOf, ih]

theorem mapIdxFrom_attachReports (env : Env) (pre : List Val) (flags : List Rec) :
    mapIdxFrom
        (attachReports env (pre ++ flags.map (fun r => env.getReports (getField r "flagId"))))
        pre.length (flags.map some) =
      flags.map (fun r => some (tagFlag env (env.getReports (getField r "flagId")) r)) := by
  induction flags generalizing pre with
  | nil => rfl
  | cons r flags ih =>
    have h := ih (pre ++ [env.getReports (getField r "flagId")])
    simp only [List.append_assoc, List.singleton_append, List.length_append,
      List.length_singleton] at h
    simp only [List.map_cons, mapIdxFrom, attachReports, Option.map_some',
      elemAt_append_length] at h ⊢
    rw [h]

/-- The tid looked up for the target post of a flag, once its reports are
attached. -/
theorem tagFlag_targetId (env : Env) (report : Val) (r : Rec) :
    getField (tagFlag env report r) "targetId" = getField r "targetId" := by
  simp [tagFlag, getField_setField_ne]

theorem getD_append_length {α : Type} (pre : List α) (x : α) (rest : List α) (d : α) :
    (pre ++ x :: rest).getD pre.length d = x := by
  induction pre with
  | nil => rfl
  | cons a pre ih => simpa using ih

theorem getTopicsFields_at (env : Env) (pre : List Val) (x : Val) (rest : List Val) :
    (getTopicsFields env (pre ++ x :: rest)).getD pre.length none = topicFields env x := by
  have h := getD_append_length (pre.map (topicFields env)) (topicFields env x)
    (rest.map (topicFields env)) none
  simpa [getTopicsFields] using h

theorem updatePostFlags_spec (env : Env) (pre : List Val) (flags : List Rec) :
    let tag := fun r => tagFlag env (env.getReports (getField r "flagId")) r
    let tidOf := fun r => env.postTid (parseInt (getField (tag r) "targetId"))
    let tids := pre ++ ((flags.filter (fun r => isPostFlag (some r))).map tidOf)
    updatePostFlags tids (getTopicsFields env tids) pre.length
        (flags.map (fun r => isPostFlag (some r))) (flags.map (fun r => some (tag r))) =
      flags.map (fun r => some (enrichFlag env r)) := by
  intro tag tidOf
  induction flags generalizing pre with
  | nil => simp [updatePostFlags]
  | cons r flags ih =>
    by_cases hp : isPostFlag (some r) = true
    · have h := ih (pre ++ [tidOf r])
      simp only [List.append_assoc, List.singleton_append, List.length_append,
        List.length_singleton] at h
      simp only [List.map_cons, hp, List.filter_cons_of_pos, updatePostFlags, h]
      simp only [attachTopic, elemAt_append_length, getTopicsFields_at, enrichFlag, hp, tag,
        tidOf, if_true]
    · have hp' : isPostFlag (some r) = false := by simpa using hp
      have h := ih pre
      simp only [List.map_cons, hp', List.filter_cons, updatePostFlags] at h ⊢
      simp [h, enrichFlag, hp', tag]

theorem selectPostFlags_spec (tag : Rec → Rec) (flags : List Rec) :
    selectPostFlags (flags.map (fun r => isPostFlag (some r))) (flags.map (fun r => some (tag r))) =
      (flags.filter (fun r => isPostFlag (some r))).map tag := by
  induction flags with
  | nil => rfl
  | cons r flags ih =>
    by_cases hp : isPostFlag (some r) = true
    · simp [selectPostFlags, hp, ih]
    · have hp' : isPostFlag (some r) = false := by simpa using hp
      simp [selectPostFlags, hp', ih]

/-- On a sequence without `null` entries `getFlagMetadata` succeeds, and every
flag is enriched on its own, at its own position. -/
theorem getFlagMetadata_ok (env : Env) (flags : List Rec) :
    getFlagMetadata env (flags.map some) = .ok (flags.map (fun r => some (enrichFlag env r))) := by
  have h1 := mapIdxFrom_attachReports env [] flags
  simp only [List.nil_append, List.length_nil] at h1
  have h2 := updatePostFlags_spec env [] flags
  simp only [List.nil_append, List.length_nil] at h2
  have hsel : (flags.map some).map isPostFlag = flags.map (fun r => isPostFlag (some r)) := by
    rw [List.map_map]; rfl
  have htid : ∀ l : List Rec,
      (getPostsFields env (l.map (fun flagObj => parseInt (getField flagObj "targetId")))).map
        (fun post => getField post "tid") =
      l.map (fun r => env.postTid (parseInt (getField r "targetId"))) := by
    intro l
    simp only [getPostsFields, List.map_map]
    apply List.map_congr_left
    intro a _
    simp [getField]
  unfold getFlagMetadata
  simp only [mapExcept_reportsOf, h1, hsel, selectPostFlags_spec, htid]
  rw [List.map_map]
  exact congrArg Except.ok h2

/-- A `null` entry makes `getFlagMetadata` throw a `TypeError`. -/
theorem getFlagMetadata_error (env : Env) (flags : List (Option Rec)) (h : none ∈ flags) :
    getFlagMetadata env flags = .error .typeError := by
  unfold getFlagMetadata
  have herr : mapExcept (reportsOf env) flags = .error .typeError := by
    apply mapExcept_error
    · intro a e' ha
      cases a with
      | none => simpa [reportsOf] using ha.symm
      | some r => simp [reportsOf] at ha
    · exact ⟨none, h, rfl⟩
  simp only [herr]

theorem hasField_setField_ne (r : Rec) (k k' : String) (v : Val) (h : k' ≠ k) :
    hasField (setField r k v) k' = hasField r k' := by
  induction r with
  | nil => simp [hasField, setField, Ne.symm h]
  | cons p r ih =>
    obtain ⟨k₀, v₀⟩ := p
    by_cases h₀ : k₀ = k
    · subst h₀; simp [hasField, setField, Ne.symm h]
    · by_cases h₁ : k₀ = k'
      · subst h₁; simp [hasField, setField, h₀]
      · simp [hasField, setField, h₀, h₁, ih]

/-- C10: on a sequence of flag records, `getFlagMetadata` completes, and a post
flag at position `i` is enriched at position `i` from its own target post. When
the tid of that post is falsy, `targetPurged` is `true` and no `title` field is
written; when the tid is truthy and the topic exists, `title` is the title of
that topic and `targetPurged` is not written. -/
theorem getFlagMetadata_post_flag (env : Env) (flags : List Rec) :
    ∃ out, getFlagMetadata env (flags.map some) = .ok out ∧ out.length = flags.length ∧
      ∀ (i : Nat) (r : Rec), flags[i]? = some r → getField r "type" = Val.str "post" →
        ∃ r', out[i]? = some (some r') ∧
          ((env.postTid (parseInt (getField r "targetId"))).truthy = false →
            getField r' "targetPurged" = Val.true ∧
            hasField r' "title" = hasField r "title" ∧
            getField r' "title" = getField r "title") ∧
          (∀ title : Val, (env.postTid (parseInt (getField r "targetId"))).truthy = true →
            env.topicTitle (env.postTid (parseInt (getField r "targetId"))) = some title →
            getField r' "title" = title ∧
            hasField r' "targetPurged" = hasField r "targetPurged" ∧
            getField r' "targetPurged" = getField r "targetPurged") := by
  refine ⟨_, getFlagMetadata_ok env flags, by simp, ?_⟩
  intro i r hi htype
  refine ⟨enrichFlag env r, by simp [hi], ?_, ?_⟩
  · intro htid
    simp [enrichFlag, isPostFlag, htype, tagFlag_targetId, linkTopic, htid, topicFields, extend,
      getField_setField_same, getField_setField_ne, hasField_setField_ne, tagFlag]
  · intro title htid htitle
    simp [enrichFlag, isPostFlag, htype, tagFlag_targetId, linkTopic, htid, topicFields, extend,
      htitle, getField_setField_same, getField_setField_ne, hasField_setField_ne, tagFlag]

/-- C4: on the sequence made of one post flag and one `null` entry,
`getFlagMetadata` throws a `TypeError`: the read `flag.flagId` of line 40 has no
guard for a `null` entry, and nothing is returned. -/
theorem getFlagMetadata_null_entry_throws :
    getFlagMetadata sampleEnv
        [some [("flagId", Val.num 5), ("type", Val.str "post"), ("targetId", Val.str "10"),
          ("datetime", Val.num 50)], none] = .error .typeError := by
  decide

/-- C8: a ban index entry whose record is gone makes `formatBanMuteData` throw a
`TypeError` at the read `d.fromUid` of line 68, and `getModerationHistory`
throws with it. -/
theorem formatBanMuteData_missing_record_throws :
    sampleStore.sortedSets (bansKey (Val.num 3)) = [("uid:3:ban:50", 50)] ∧
      sampleStore.objects "uid:3:ban:50" = none ∧
      formatBanMuteData sampleEnv sampleStore ["uid:3:ban:50"]
        (Val.str "[[user:info.banned-no-reason]]") = .error .typeError ∧
      getModerationHistory sampleEnv sampleStore (Val.num 3) = .error .typeError := by
  decide

/-- C5: listing the notes of user 1, whose newest note has lost its body, gives
the older note the `user` value `undefined` although its author, user 7, has an
identity: `userData` holds one entry per non-null note and is read at the
position of the note among all ids. -/
theorem getModerationNotes_author_misaligned :
    sampleStore.getSortedSetRevRange [notesKey (Val.num 1)] 0 (-1) = ["2", "1"] ∧
      sampleStore.objects (noteKey (Val.num 1) (Val.str "2")) = none ∧
      (sampleStore.objects (noteKey (Val.num 1) (Val.str "1"))).map
        (fun note => getField note "uid") = some (Val.num 7) ∧
      userValue sampleEnv (Val.num 7) = Val.obj [("uid", .num 7), ("username", .str "mod")] ∧
      (getModerationNotes sampleEnv sampleStore (Val.num 1) 0 (-1)).map
        (fun note => note.map (fun r => getField r "user")) = [none, some Val.undefined] := by
  decide

/-! ## The history merger -/

theorem mem_of_mem_sliceRange {α : Type} (l : List α) (start stop : Int) (x : α)
    (h : x ∈ sliceRange l start stop) : x ∈ l := by
  dsimp only [sliceRange] at h
  split_ifs at h <;>
    first
    | exact absurd h (List.not_mem_nil x)
    | exact List.mem_of_mem_drop (List.mem_of_mem_take h)

theorem mem_index_of_mem_range (s : Store) (keys : List String) (start stop : Int)
    (e : String × Int) (h : e ∈ s.getSortedSetRevRangeWithScores keys start stop) :
    ∃ key ∈ keys, e ∈ s.sortedSets key := by
  have h' := mem_of_mem_sliceRange _ _ _ _ h
  have h'' := (List.perm_insertionSort revOrder (keys.flatMap s.sortedSets)).mem_iff.mp h'
  simpa [List.mem_flatMap] using h''

theorem length_revRange_top (s : Store) (keys : List String) :
    (s.getSortedSetRevRange keys 0 19).length = min 20 (keys.flatMap s.sortedSets).length := by
  simp [Store.getSortedSetRevRange, Store.getSortedSetRevRangeWithScores,
    length_sliceRange_top, List.length_insertionSort]

theorem getObjectsFields_eq_map_some (s : Store) (keys fields : List String)
    (h : ∀ k ∈ keys, s.objects k ≠ none) :
    ∃ recs : List Rec, s.getObjectsFields keys fields = recs.map some ∧
      recs.length = keys.length := by
  induction keys with
  | nil => exact ⟨[], rfl, rfl⟩
  | cons k keys ih =>
    obtain ⟨recs, hrecs, hlen⟩ := ih (fun x hx => h x (List.mem_cons_of_mem k hx))
    cases ho : s.objects k with
    | none => exact absurd ho (h k (List.mem_cons_self k keys))
    | some r =>
      refine ⟨projectFields fields r :: recs, ?_, by simp [hlen]⟩
      simp only [Store.getObjectsFields, Store.getObject, List.map_cons, ho, Option.map_some']
        at hrecs ⊢
      rw [hrecs]

/-- In a store where every indexed flag, ban, unban, mute and unmute record
exists, `getModerationHistory` returns three lists, each of length `min 20 n`
for the `n` entries of its stream. -/
theorem getModerationHistory_lengths (env : Env) (s : Store) (uid : Val)
    (hflags : ∀ e ∈ s.sortedSets (flagsKey uid), s.objects ("flag:" ++ e.1) ≠ none)
    (hbans : ∀ key ∈ [bansKey uid, unbansKey uid, mutesKey uid, unmutesKey uid],
      ∀ e ∈ s.sortedSets key, s.objects e.1 ≠ none) :
    ∃ h, getModerationHistory env s uid = .ok h ∧
      h.flags.length = min 20 (s.sortedSets (flagsKey uid)).length ∧
      h.bans.length =
        min 20 ((s.sortedSets (bansKey uid)).length + (s.sortedSets (unbansKey uid)).length) ∧
      h.mutes.length =
        min 20 ((s.sortedSets (mutesKey uid)).length + (s.sortedSets (unmutesKey uid)).length) := by
  have hkeys : ∀ k ∈ (s.getSortedSetRevRangeWithScores [flagsKey uid] 0 19).map
      (fun flagObj => "flag:" ++ flagObj.1), s.objects k ≠ none := by
    intro k hk
    obtain ⟨e, he, rfl⟩ := List.mem_map.mp hk
    obtain ⟨key, hkey, hmem⟩ := mem_index_of_mem_range s _ _ _ e he
    rw [List.mem_singleton.mp hkey] at hmem
    exact hflags e hmem
  have hrange : ∀ keys : List String,
      (∀ key ∈ keys, ∀ e ∈ s.sortedSets key, s.objects e.1 ≠ none) →
      ∀ k ∈ s.getSortedSetRevRange keys 0 19, s.objects k ≠ none := by
    intro keys hall k hk
    obtain ⟨e, he, rfl⟩ := List.mem_map.mp hk
    obtain ⟨key, hkey, hmem⟩ := mem_index_of_mem_range s _ _ _ e he
    exact hall key hkey e hmem
  obtain ⟨recs, hrecs, hlen⟩ := getObjectsFields_eq_map_some s _
    ["flagId", "type", "targetId", "datetime"] hkeys
  obtain ⟨bans, hbansOk, hbansLen, -⟩ := formatBanMuteData_spec env s
    (s.getSortedSetRevRange [bansKey uid, unbansKey uid] 0 19)
    (Val.str "[[user:info.banned-no-reason]]")
    (hrange _ (fun key hkey => hbans key (by simp at hkey ⊢; tauto)))
  obtain ⟨mutes, hmutesOk, hmutesLen, -⟩ := formatBanMuteData_spec env s
    (s.getSortedSetRevRange [mutesKey uid, unmutesKey uid] 0 19)
    (Val.str "[[user:info.muted-no-reason]]")
    (hrange _ (fun key hkey => hbans key (by simp at hkey ⊢; tauto)))
  refine ⟨⟨recs.map (fun r => some (enrichFlag env r)), bans, mutes⟩, ?_, ?_, ?_, ?_⟩
  · unfold getModerationHistory
    simp only [hrecs, getFlagMetadata_ok, hbansOk, hmutesOk]
  · have := length_revRange_top s [flagsKey uid]
    simp [Store.getSortedSetRevRange] at this
    simp [hlen, this]
  · rw [hbansLen, length_revRange_top]; simp
  · rw [hmutesLen, length_revRange_top]; simp

/-- C3: for user 3 of the sample store, whose ban index holds one entry whose
record is gone, `getModerationHistory` throws a `TypeError` and returns no
lists, where a `bans` list of length 1 is called for. -/
theorem getModerationHistory_missing_record_throws :
    (sampleStore.sortedSets (bansKey (Val.num 3))).length +
        (sampleStore.sortedSets (unbansKey (Val.num 3))).length = 1 ∧
      getModerationHistory sampleEnv sampleStore (Val.num 3) = .error .typeError := by
  decide

/-- The sample history of user 1: two flags, four ban and unban records, no
mute record, each list shorter than 20 and not padded. -/
theorem getModerationHistory_sample_lengths :
    (getModerationHistory sampleEnv sampleStore (Val.num 1)).map
      (fun h => (h.flags.length, h.bans.length, h.mutes.length)) = .ok (2, 4, 0) := by
  decide

/-! ## Instances on the sample store -/

theorem formatBanMuteData_reason_escaped_witness :
    (∀ k ∈ sampleBanKeys, sampleStore.objects k ≠ none) ∧
      ((∃ out, formatBanMuteData sampleEnv sampleStore sampleBanKeys
            (Val.str "[[user:info.banned-no-reason]]") = .ok out ∧
          out.length = sampleBanKeys.length ∧
          ∀ (i : Nat) (k : String) (r : Rec) (t : String), sampleBanKeys[i]? = some k →
            sampleStore.objects k = some r → getField r "reason" = Val.str t → t ≠ "" →
            (out[i]?).map (fun r' => getField r' "reason") = some (Val.str (escape t))) ∧
        escape "<b>spam</b>" = "&lt;b&gt;spam&lt;&#x2F;b&gt;") :=
  ⟨by decide,
    formatBanMuteData_reason_escaped sampleEnv sampleStore sampleBanKeys
      (Val.str "[[user:info.banned-no-reason]]") (by decide)⟩

/-- C6 (as stated) fails on the reason `<b>spam</b>`: the formatted reason is
`&lt;b&gt;spam&lt;&#x2F;b&gt;`, with the slash escaped, and not
`&lt;b&gt;spam&lt;/b&gt;`. -/
theorem formatBanMuteData_spam_reason :
    (sampleStore.objects "uid:1:ban:300").map (fun r => getField r "reason") =
        some (Val.str "<b>spam</b>") ∧
      (formatBanMuteData sampleEnv sampleStore ["uid:1:ban:300"]
          (Val.str "[[user:info.banned-no-reason]]")).map
        (List.map (fun r => getField r "reason")) =
          .ok [Val.str "&lt;b&gt;spam&lt;&#x2F;b&gt;"] ∧
      (formatBanMuteData sampleEnv sampleStore ["uid:1:ban:300"]
          (Val.str "[[user:info.banned-no-reason]]")).map
        (List.map (fun r => getField r "reason")) ≠
          .ok [Val.str "&lt;b&gt;spam&lt;/b&gt;"] := by
  decide

theorem formatBanMuteData_default_reason_witness :
    (∀ k ∈ sampleBanKeys, sampleStore.objects k ≠ none) ∧
      ∃ out, formatBanMuteData sampleEnv sampleStore sampleBanKeys
          (Val.str "[[user:info.banned-no-reason]]") = .ok out ∧
        out.length = sampleBanKeys.length ∧
        ∀ (i : Nat) (k : String) (r : Rec), sampleBanKeys[i]? = some k →
          sampleStore.objects k = some r →
          ((getField r "reason").truthy = false →
            (out[i]?).map (fun r' => getField r' "reason") =
              some (Val.str "[[user:info.banned-no-reason]]")) ∧
          (∀ t : String, getField r "reason" = Val.str t → t ≠ "" →
            (out[i]?).map (fun r' => getField r' "reason") = some (Val.str (escape t))) :=
  ⟨by decide,
    formatBanMuteData_default_reason sampleEnv sampleStore sampleBanKeys
      (Val.str "[[user:info.banned-no-reason]]") (by decide)⟩

theorem formatBanMuteData_aligned_witness :
    (∀ k ∈ sampleBanKeys, sampleStore.objects k ≠ none) ∧
      ∃ out, formatBanMuteData sampleEnv sampleStore sampleBanKeys
          (Val.str "[[user:info.banned-no-reason]]") = .ok out ∧
        out.length = sampleBanKeys.length ∧
        ∀ (i : Nat) (k : String) (r : Rec), sampleBanKeys[i]? = some k →
          sampleStore.objects k = some r →
          ∃ r', out[i]? = some r' ∧
            getField r' "user" = userValue sampleEnv (getField r "fromUid") ∧
            (sampleEnv.userView (getField r "fromUid") = none →
              getField r' "user" = Val.undefined) ∧
            getField r' "until" = parseInt (getField r "expire") ∧
            ∀ f, f ∉ ["user", "until", "untilISO", "timestampISO", "reason"] →
              getField r' f = getField r f :=
  ⟨by decide,
    formatBanMuteData_aligned sampleEnv sampleStore sampleBanKeys
      (Val.str "[[user:info.banned-no-reason]]") (by decide)⟩

/-- The sample ban records formatted: the actor of the second record, user 8,
does not exist and its `user` is `undefined`; the empty reason is replaced by
the default. -/
theorem formatBanMuteData_sample :
    (formatBanMuteData sampleEnv sampleStore sampleBanKeys
        (Val.str "[[user:info.banned-no-reason]]")).map
      (List.map (fun r => (getField r "user", getField r "until", getField r "reason"))) =
      .ok [(Val.obj [("uid", .num 7), ("username", .str "mod")], Val.num 400,
            Val.str "&lt;b&gt;spam&lt;&#x2F;b&gt;"),
          (Val.undefined, Val.num 0, Val.str "[[user:info.banned-no-reason]]"),
          (Val.obj [("uid", .num 7), ("username", .str "mod")], .prim .nan,
            Val.str "[[user:info.banned-no-reason]]")] := by
  decide

/-- The sample flags enriched: flag 5 targets post 10 of topic 100 and gets its
title; flag 6 targets post 11, which has no topic, and is marked purged. -/
theorem getFlagMetadata_sample :
    (getFlagMetadata sampleEnv
        (sampleStore.getObjectsFields ["flag:5", "flag:6"]
          ["flagId", "type", "targetId", "datetime"])).map
      (List.map (Option.map (fun r =>
        (getField r "pid", getField r "targetPurged", getField r "title",
          hasField r "title")))) =
      .ok [some (Val.str "10", Val.undefined, Val.str "Hello", Bool.true),
          some (Val.str "11", Val.true, Val.undefined, Bool.false)] := by
  decide


/-! ## Flag lookups and reports -/

/-- The flags returned by `getFlagMetadata` are those of the traced run. -/
theorem getFlagMetadata_eq_traced (env : Env) (flags : List (Option Rec)) :
    getFlagMetadata env flags = (getFlagMetadataTraced env flags).map Prod.snd := by
  unfold getFlagMetadata getFlagMetadataTraced
  cases mapExcept (reportsOf env) flags <;> rfl

theorem filter_isPostFlag (flags : List Rec) :
    flags.filter (fun r => isPostFlag (some r)) =
      flags.filter (fun r => decide (getField r "type" = Val.str "post")) := by
  apply List.filter_congr
  intro r _
  rfl

/-- On a sequence without `null` entries the traced run hands to the post lookup
the parsed `targetId` of every flag whose type is `post`, in input order. -/
theorem getFlagMetadataTraced_ok (env : Env) (flags : List Rec) :
    getFlagMetadataTraced env (flags.map some) =
      .ok ((flags.filter (fun r => decide (getField r "type" = Val.str "post"))).map
          (fun r => parseInt (getField r "targetId")),
        flags.map (fun r => some (enrichFlag env r))) := by
  have h1 := mapIdxFrom_attachReports env [] flags
  simp only [List.nil_append, List.length_nil] at h1
  have h2 := updatePostFlags_spec env [] flags
  simp only [List.nil_append, List.length_nil] at h2
  have hsel : (flags.map some).map isPostFlag = flags.map (fun r => isPostFlag (some r)) := by
    rw [List.map_map]; rfl
  have htid : ∀ l : List Rec,
      (getPostsFields env (l.map (fun flagObj => parseInt (getField flagObj "targetId")))).map
        (fun post => getField post "tid") =
      l.map (fun r => env.postTid (parseInt (getField r "targetId"))) := by
    intro l
    simp only [getPostsFields, List.map_map]
    apply List.map_congr_left
    intro a _
    simp [getField]
  have hpids : ((flags.filter (fun r => isPostFlag (some r))).map
      (fun r => tagFlag env (env.getReports (getField r "flagId")) r)).map
        (fun flagObj => parseInt (getField flagObj "targetId")) =
      (flags.filter (fun r => decide (getField r "type" = Val.str "post"))).map
        (fun r => parseInt (getField r "targetId")) := by
    rw [List.map_map, filter_isPostFlag]
    apply List.map_congr_left
    intro r _
    simp [tagFlag_targetId]
  unfold getFlagMetadataTraced
  simp only [mapExcept_reportsOf, h1, hsel, selectPostFlags_spec, htid, hpids]
  simp only [tagFlag_targetId, filter_isPostFlag] at h2
  rw [h2]

/-- The enrichment of a flag reads the post lookup at the parsed `targetId` of
the flag only, and only for a flag of type `post`. -/
theorem enrichFlag_congr_postTid (env : Env) (f : Val → Val) (r : Rec)
    (h : getField r "type" = Val.str "post" →
      f (parseInt (getField r "targetId")) = env.postTid (parseInt (getField r "targetId"))) :
    enrichFlag { env with postTid := f } r = enrichFlag env r := by
  unfold enrichFlag
  by_cases hp : isPostFlag (some r) = true
  · have htype : getField r "type" = Val.str "post" := by simpa [isPostFlag] using hp
    simp only [hp, if_true, tagFlag_targetId]
    rw [h htype]
    rfl
  · simp only [hp]
    rfl

theorem tagFlag_getField_other (env : Env) (report : Val) (r : Rec) (k : String)
    (hk : k ∉ ["timestamp", "timestampISO", "reports"]) :
    getField (tagFlag env report r) k = getField r k := by
  simp at hk
  simp [tagFlag, getField_setField_ne, hk]

theorem tagFlag_hasField_other (env : Env) (report : Val) (r : Rec) (k : String)
    (hk : k ∉ ["timestamp", "timestampISO", "reports"]) :
    hasField (tagFlag env report r) k = hasField r k := by
  simp at hk
  simp [tagFlag, hasField_setField_ne, hk]

theorem tagFlag_reports (env : Env) (report : Val) (r : Rec) :
    getField (tagFlag env report r) "reports" = report := by
  simp [tagFlag, getField_setField_same]

theorem tagFlag_timestamp (env : Env) (report : Val) (r : Rec) :
    getField (tagFlag env report r) "timestamp" = parseInt (getField r "datetime") := by
  simp [tagFlag, getField_setField_same, getField_setField_ne]

theorem linkTopic_getField_other (env : Env) (tid : Val) (r : Rec) (k : String)
    (hk : k ∉ ["pid", "targetPurged", "title"]) :
    getField (linkTopic tid (topicFields env tid) r) k = getField r k := by
  simp at hk
  unfold linkTopic topicFields
  by_cases ht : tid.truthy = true
  · cases htitle : env.topicTitle tid <;>
      simp [ht, htitle, extend, getField_setField_ne, hk]
  · simp [ht, extend, getField_setField_ne, hk]

/-- C11 (as amended): on a sequence of flag records, the pids that
`getFlagMetadata` passes to the post lookup are the integer parses
`parseInt(targetId, 10)` of the `targetId`s of the flags whose type is `post`,
in input order, and the result depends on the post lookup at these pids only; a
flag of another type comes back without a `pid`, `title` or `targetPurged`
write. -/
theorem getFlagMetadata_lookup_pids (env : Env) (flags : List Rec) :
    (∀ fl, getFlagMetadata env fl = (getFlagMetadataTraced env fl).map Prod.snd) ∧
      (∀ f : Val → Val,
        (∀ pid ∈ (flags.filter (fun r => decide (getField r "type" = Val.str "post"))).map
            (fun r => parseInt (getField r "targetId")), f pid = env.postTid pid) →
        getFlagMetadata { env with postTid := f } (flags.map some) =
          getFlagMetadata env (flags.map some)) ∧
      ∃ out, getFlagMetadataTraced env (flags.map some) =
          .ok ((flags.filter (fun r => decide (getField r "type" = Val.str "post"))).map
            (fun r => parseInt (getField r "targetId")), out) ∧
        getFlagMetadata env (flags.map some) = .ok out ∧
        ∀ (i : Nat) (r : Rec), flags[i]? = some r → getField r "type" ≠ Val.str "post" →
          ∃ r', out[i]? = some (some r') ∧
            ∀ k ∈ ["pid", "title", "targetPurged"],
              hasField r' k = hasField r k ∧ getField r' k = getField r k := by
  refine ⟨getFlagMetadata_eq_traced env, ?_, _, getFlagMetadataTraced_ok env flags,
    getFlagMetadata_ok env flags, ?_⟩
  · intro f hf
    rw [getFlagMetadata_ok, getFlagMetadata_ok]
    congr 1
    apply List.map_congr_left
    intro r hr
    rw [enrichFlag_congr_postTid env f r]
    intro htype
    apply hf
    exact List.mem_map.mpr ⟨r, List.mem_filter.mpr ⟨hr, by simpa using htype⟩, rfl⟩
  · intro i r hi htype
    refine ⟨enrichFlag env r, by simp [hi], ?_⟩
    intro k hk
    have hpost : isPostFlag (some r) = false := by simpa [isPostFlag] using htype
    have hk' : k ∉ ["timestamp", "timestampISO", "reports"] := by
      simp at hk ⊢
      rcases hk with rfl | rfl | rfl <;> decide
    simp only [enrichFlag, hpost]
    exact ⟨tagFlag_hasField_other env _ r k hk', tagFlag_getField_other env _ r k hk'⟩

/-- C11 (as stated) fails on a flag whose `targetId` is the URI of a remote post:
the pid handed to the post lookup is `NaN`, the integer parse of the URI, and
not the `targetId`; the post, known under its `targetId` in topic 100, is not
found, and the flag comes back purged and without the title. -/
theorem getFlagMetadata_lookup_not_targetId :
    getField sampleRemoteFlag "targetId" = Val.str "https://remote.example/post/1" ∧
      (getFlagMetadataTraced sampleRemoteEnv [some sampleRemoteFlag]).map Prod.fst =
        .ok [.prim .nan] ∧
      (getFlagMetadataTraced sampleRemoteEnv [some sampleRemoteFlag]).map Prod.fst ≠
        .ok [getField sampleRemoteFlag "targetId"] ∧
      sampleRemoteEnv.postTid (getField sampleRemoteFlag "targetId") = Val.num 100 ∧
      (getFlagMetadata sampleRemoteEnv [some sampleRemoteFlag]).map
        (List.map (Option.map (fun r => (getField r "targetPurged", getField r "title")))) =
        .ok [some (Val.true, Val.undefined)] := by
  decide

/-- C12: on a sequence of non-null flag records, `getFlagMetadata` returns one
record per flag in input order; record `i` carries as `reports` the report list
fetched for the `flagId` of flag `i`, as `timestamp` the integer parse of its
`datetime`, and keeps the fields of flag `i` that enrichment does not write. -/
theorem getFlagMetadata_reports_aligned (env : Env) (flags : List Rec) :
    ∃ out, getFlagMetadata env (flags.map some) = .ok out ∧ out.length = flags.length ∧
      ∀ (i : Nat) (r : Rec), flags[i]? = some r →
        ∃ r', out[i]? = some (some r') ∧
          getField r' "reports" = env.getReports (getField r "flagId") ∧
          getField r' "timestamp" = parseInt (getField r "datetime") ∧
          ∀ k, k ∉ ["timestamp", "timestampISO", "reports", "pid", "targetPurged", "title"] →
            getField r' k = getField r k := by
  refine ⟨_, getFlagMetadata_ok env flags, by simp, ?_⟩
  intro i r hi
  refine ⟨enrichFlag env r, by simp [hi], ?_, ?_, ?_⟩
  · unfold enrichFlag
    split
    · rw [linkTopic_getField_other env _ _ _ (by decide), tagFlag_reports]
    · exact tagFlag_reports env _ r
  · unfold enrichFlag
    split
    · rw [linkTopic_getField_other env _ _ _ (by decide), tagFlag_timestamp]
    · exact tagFlag_timestamp env _ r
  · intro k hk
    have hk1 : k ∉ ["timestamp", "timestampISO", "reports"] := by
      simp at hk ⊢; tauto
    have hk2 : k ∉ ["pid", "targetPurged", "title"] := by
      simp at hk ⊢; tauto
    unfold enrichFlag
    split
    · rw [linkTopic_getField_other env _ _ _ hk2, tagFlag_getField_other env _ r k hk1]
    · exact tagFlag_getField_other env _ r k hk1


/-! ## Moderation notes -/

theorem getField_setField (r : Rec) (k k' : String) (v : Val) :
    getField (setField r k v) k' = if k' = k then v else getField r k' := by
  by_cases h : k' = k
  · subst h; simp [getField_setField_same]
  · simp [h, getField_setField_ne]

theorem getField_mergeFields (base data : Rec) (k : String) :
    getField (mergeFields base data) k =
      if hasField data k then getField data k else getField base k := by
  induction data with
  | nil => simp [mergeFields, hasField]
  | cons p data ih =>
    obtain ⟨k₀, v₀⟩ := p
    by_cases h : k₀ = k
    · subst h; simp [mergeFields, getField_setField, hasField, getField]
    · have h' : ¬ k = k₀ := fun e => h e.symm
      simp [mergeFields, getField_setField, hasField, getField, h, h', ih]

theorem getElem?_getObjects (s : Store) (keys : List String) (i : Nat) :
    (s.getObjects keys)[i]? = (keys[i]?).map s.objects := by
  simp only [Store.getObjects, List.getElem?_map]
  cases keys[i]? <;> rfl

theorem elemAt_of_getElem? (xs : List Val) (i : Nat) (x : Val) (h : xs[i]? = some x) :
    elemAt xs i = x := by
  simp [elemAt, List.getD_eq_getElem?_getD, h]

theorem renderNote_id (env : Env) (userData : List Val) (i : Nat) (r : Rec) :
    ∃ r', renderNote env userData i (some r) = some r' ∧ getField r' "id" = getField r "id" := by
  refine ⟨_, rfl, ?_⟩
  simp [getField_setField_ne]

theorem length_getModerationNotesByIds (env : Env) (s : Store) (uid : Val)
    (noteIds : List Val) :
    (getModerationNotesByIds env s uid noteIds).length = noteIds.length := by
  simp [getModerationNotesByIds, length_mapIdxFrom, Store.getObjects]

/-- The slot `i` of the result of `getModerationNotesByIds` is `null` when the
body of note id `i` is missing, and otherwise a note whose `id` is that id. -/
theorem getModerationNotesByIds_slot (env : Env) (s : Store) (uid : Val) (noteIds : List Val)
    (i : Nat) (id : Val) (hi : noteIds[i]? = some id) :
    (s.objects (noteKey uid id) = none →
        (getModerationNotesByIds env s uid noteIds)[i]? = some none) ∧
      (∀ r, s.objects (noteKey uid id) = some r →
        ∃ r', (getModerationNotesByIds env s uid noteIds)[i]? = some (some r') ∧
          getField r' "id" = id) := by
  have hslot : ∀ o, s.objects (noteKey uid id) = o →
      (getModerationNotesByIds env s uid noteIds)[i]? =
        some ((o.map (fun r => setField (setField r "id" id) "timestampISO"
          (env.toISOString (getField (setField r "id" id) "timestamp")))).bind
            (fun r => renderNote env
              (getUsersFields env (noteUids noteIds 0 (s.getObjects
                (noteIds.map (fun id => noteKey uid id))))) i (some r))) := by
    intro o ho
    simp only [getModerationNotesByIds, getElem?_mapIdxFrom, getElem?_getObjects,
      List.getElem?_map, hi, Option.map_some', ho, Nat.zero_add, tagNote,
      elemAt_of_getElem? noteIds i id hi]
    cases o <;> simp [renderNote]
  constructor
  · intro hnone
    rw [hslot none hnone]; rfl
  · intro r hr
    rw [hslot (some r) hr]
    obtain ⟨r', hr', hid⟩ := renderNote_id env
      (getUsersFields env (noteUids noteIds 0 (s.getObjects
        (noteIds.map (fun id => noteKey uid id))))) i
      (setField (setField r "id" id) "timestampISO"
        (env.toISOString (getField (setField r "id" id) "timestamp")))
    refine ⟨r', by simp [hr'], ?_⟩
    rw [hid]
    simp [getField_setField_ne, getField_setField_same]

/-- C15: `getModerationNotesByIds` returns one slot per note id; the slot of an
id whose body is missing is `null` at that position, and a non-null note at
position `i` has `id = noteIds[i]`. -/
theorem getModerationNotesByIds_positional (env : Env) (s : Store) (uid : Val)
    (noteIds : List Val) :
    (getModerationNotesByIds env s uid noteIds).length = noteIds.length ∧
      ∀ (i : Nat) (id : Val), noteIds[i]? = some id →
        (s.objects (noteKey uid id) = none →
          (getModerationNotesByIds env s uid noteIds)[i]? = some none) ∧
        (∀ r, s.objects (noteKey uid id) = some r →
          ∃ r', (getModerationNotesByIds env s uid noteIds)[i]? = some (some r') ∧
            getField r' "id" = id) :=
  ⟨length_getModerationNotesByIds env s uid noteIds,
    fun i id hi => getModerationNotesByIds_slot env s uid noteIds i id hi⟩


theorem sortedSetAdd_sets_same (s : Store) (key : String) (score : Int) (member : String) :
    (s.sortedSetAdd key score member).sortedSets key =
      (member, score) :: (s.sortedSets key).filter (fun e => e.1 != member) := by
  simp [Store.sortedSetAdd]

/-- An entry added with a score above every score of the index is the first of
the descending range. -/
theorem revRange_top_after_add (s : Store) (key : String) (score : Int) (member : String)
    (h : ∀ e ∈ s.sortedSets key, e.2 < score) :
    (s.sortedSetAdd key score member).getSortedSetRevRange [key] 0 0 = [member] := by
  have hne : (s.sortedSetAdd key score member).sortedSets key ≠ [] := by
    rw [sortedSetAdd_sets_same]; exact List.cons_ne_nil _ _
  obtain ⟨e, he, hmax, hr⟩ := revRange_top _ key hne
  rw [hr]
  rw [sortedSetAdd_sets_same] at he hmax
  rcases List.mem_cons.mp he with rfl | hold
  · rfl
  · exfalso
    have h1 : e.2 < score := h e (List.mem_of_mem_filter hold)
    have h2 : score ≤ e.2 := hmax (member, score) (List.mem_cons_self _ _)
    omega

theorem noteKey_str (uid id : Val) : noteKey uid (Val.str id.toJsString) = noteKey uid id := rfl

theorem setObject_objects_same (s : Store) (key : String) (data : Rec) :
    (s.setObject key data).objects key = some (mergeFields ((s.objects key).getD []) data) := by
  simp [Store.setObject]

theorem setObject_objects_ne (s : Store) (key k : String) (data : Rec) (h : k ≠ key) :
    (s.setObject key data).objects k = s.objects k := by
  simp [Store.setObject, h]

/-- C13: appending a note whose timestamp is above every score of the note index
of `uid` and then listing with `start = 0, stop = 0` returns exactly one note:
its `id` is the timestamp as printed in the index, its `uid` is the author of
the note data, and its raw and rendered bodies are made from the body of the
note data. -/
theorem appendModerationNote_then_list (env : Env) (s : Store) (uid author body : Val)
    (timestamp : Int) (h : ∀ e ∈ s.sortedSets (notesKey uid), e.2 < timestamp) :
    ∃ s' note, appendModerationNote s uid (mkNote author body timestamp) = .ok s' ∧
      getModerationNotes env s' uid 0 0 = [some note] ∧
      getField note "id" = Val.str (Val.num timestamp).toJsString ∧
      getField note "uid" = author ∧
      getField note "timestamp" = Val.num timestamp ∧
      getField note "rawNote" = Val.str (escape body.toJsString) ∧
      getField note "note" = Val.str (env.parseRaw body.toJsString) ∧
      getField note "user" = userValue env author := by
  have hrange := revRange_top_after_add s (notesKey uid) timestamp
    (Val.num timestamp).toJsString h
  have hstored := setObject_objects_same
    (s.sortedSetAdd (notesKey uid) timestamp (Val.num timestamp).toJsString)
    (noteKey uid (Val.num timestamp)) (mkNote author body timestamp)
  have huid := getField_mergeFields
    (((s.sortedSetAdd (notesKey uid) timestamp (Val.num timestamp).toJsString).objects
      (noteKey uid (Val.num timestamp))).getD []) (mkNote author body timestamp) "uid"
  have hnote := getField_mergeFields
    (((s.sortedSetAdd (notesKey uid) timestamp (Val.num timestamp).toJsString).objects
      (noteKey uid (Val.num timestamp))).getD []) (mkNote author body timestamp) "note"
  have hts := getField_mergeFields
    (((s.sortedSetAdd (notesKey uid) timestamp (Val.num timestamp).toJsString).objects
      (noteKey uid (Val.num timestamp))).getD []) (mkNote author body timestamp) "timestamp"
  simp only [mkNote, hasField, getField, if_true, String.reduceEq, if_false] at huid hnote hts
  suffices hlist : ∃ note, getModerationNotes env
      ((s.sortedSetAdd (notesKey uid) timestamp (Val.num timestamp).toJsString).setObject
        (noteKey uid (Val.num timestamp)) (mkNote author body timestamp)) uid 0 0 =
        [some note] ∧
      getField note "id" = Val.str (Val.num timestamp).toJsString ∧
      getField note "uid" = author ∧
      getField note "timestamp" = Val.num timestamp ∧
      getField note "rawNote" = Val.str (escape body.toJsString) ∧
      getField note "note" = Val.str (env.parseRaw body.toJsString) ∧
      getField note "user" = userValue env author by
    obtain ⟨note, h1, h2⟩ := hlist
    exact ⟨_, note, rfl, h1, h2⟩
  have hrange' : ((s.sortedSetAdd (notesKey uid) timestamp
      (Val.num timestamp).toJsString).setObject (noteKey uid (Val.num timestamp))
        (mkNote author body timestamp)).getSortedSetRevRange [notesKey uid] 0 0 =
      [(Val.num timestamp).toJsString] := hrange
  simp only [getModerationNotes, hrange', getModerationNotesByIds, List.map_cons, List.map_nil,
    noteKey_str, Store.getObjects, Store.getObject, hstored, mapIdxFrom, tagNote, noteUids,
    getUsersFields, renderNote, Option.map_some', elemAt, List.getD_cons_zero]
  refine ⟨_, rfl, ?_⟩
  simp [getField_setField, huid, hnote, hts, mkNote]

theorem appendModerationNote_then_list_witness :
    (∀ e ∈ sampleStore.sortedSets (notesKey (Val.num 1)), e.2 < 5) ∧
      ∃ s' note, appendModerationNote sampleStore (Val.num 1)
          (mkNote (Val.num 7) (Val.str "a<b") 5) = .ok s' ∧
        getModerationNotes sampleEnv s' (Val.num 1) 0 0 = [some note] ∧
        getField note "id" = Val.str (Val.num 5).toJsString ∧
        getField note "uid" = Val.num 7 ∧
        getField note "timestamp" = Val.num 5 ∧
        getField note "rawNote" = Val.str (escape (Val.str "a<b").toJsString) ∧
        getField note "note" = Val.str (sampleEnv.parseRaw (Val.str "a<b").toJsString) ∧
        getField note "user" = userValue sampleEnv (Val.num 7) :=
  ⟨by decide,
    appendModerationNote_then_list sampleEnv sampleStore (Val.num 1) (Val.num 7)
      (Val.str "a<b") 5 (by decide)⟩

/-- The sample append: the note of timestamp 5 comes back alone, with id "5". -/
theorem appendModerationNote_sample :
    (appendModerationNote sampleStore (Val.num 1) (mkNote (Val.num 7) (Val.str "a<b") 5)).map
      (fun s' => (getModerationNotes sampleEnv s' (Val.num 1) 0 0).map
        (Option.map (fun note =>
          (getField note "id", getField note "uid", getField note "rawNote")))) =
      .ok [some (Val.str "5", Val.num 7, Val.str "a&lt;b")] := by
  decide

theorem setModerationNote_sortedSets (s : Store) (uid : Val) (noteData : Rec) :
    (setModerationNote s uid noteData).sortedSets = s.sortedSets := rfl

theorem setModerationNote_range (s : Store) (uid : Val) (noteData : Rec) (keys : List String)
    (start stop : Int) :
    (setModerationNote s uid noteData).getSortedSetRevRange keys start stop =
      s.getSortedSetRevRange keys start stop := rfl

/-- C14: `setModerationNote` leaves every sorted index as it was and changes no
record other than `uid:<uid>:moderation:note:<timestamp>`; a later listing reads
the same ids from the index, has the same length and keeps the id of every note
it returned before; the addressed record carries the body of the note data. -/
theorem setModerationNote_frame (env : Env) (s : Store) (uid : Val) (noteData : Rec) :
    (setModerationNote s uid noteData).sortedSets = s.sortedSets ∧
      (∀ k, k ≠ noteKey uid (getField noteData "timestamp") →
        (setModerationNote s uid noteData).objects k = s.objects k) ∧
      (∀ start stop : Int,
        (setModerationNote s uid noteData).getSortedSetRevRange [notesKey uid] start stop =
          s.getSortedSetRevRange [notesKey uid] start stop) ∧
      (∀ (start stop : Int),
        (getModerationNotes env (setModerationNote s uid noteData) uid start stop).length =
          (getModerationNotes env s uid start stop).length ∧
        ∀ (i : Nat) (r : Rec), (getModerationNotes env s uid start stop)[i]? = some (some r) →
          ∃ r', (getModerationNotes env (setModerationNote s uid noteData) uid start stop)[i]? =
              some (some r') ∧ getField r' "id" = getField r "id") ∧
      (hasField noteData "note" = true →
        ∃ r, (setModerationNote s uid noteData).objects
            (noteKey uid (getField noteData "timestamp")) = some r ∧
          getField r "note" = getField noteData "note") := by
  refine ⟨rfl, fun k hk => setObject_objects_ne s _ k noteData hk, fun _ _ => rfl, ?_, ?_⟩
  · intro start stop
    simp only [getModerationNotes, setModerationNote_range, length_getModerationNotesByIds,
      true_and]
    intro i r hr
    generalize hids : (s.getSortedSetRevRange [notesKey uid] start stop).map Val.str = noteIds
      at hr ⊢
    have hlt : i < noteIds.length := by
      have := List.getElem?_eq_some_iff.mp hr
      obtain ⟨hlt, -⟩ := this
      simpa [length_getModerationNotesByIds] using hlt
    have hid : noteIds[i]? = some noteIds[i] := List.getElem?_eq_getElem hlt
    obtain ⟨hnone, hsome⟩ := getModerationNotesByIds_slot env s uid noteIds i _ hid
    cases ho : s.objects (noteKey uid noteIds[i]) with
    | none =>
      rw [hnone ho] at hr
      cases hr
    | some r₀ =>
      obtain ⟨r₁, hr₁, hid₁⟩ := hsome r₀ ho
      rw [hr₁] at hr
      injection hr with hr
      injection hr with hr
      subst hr
      have hex : ∃ r₂, (setModerationNote s uid noteData).objects (noteKey uid noteIds[i]) =
          some r₂ := by
        by_cases hk : noteKey uid noteIds[i] = noteKey uid (getField noteData "timestamp")
        · rw [hk]; exact ⟨_, setObject_objects_same s _ noteData⟩
        · exact ⟨r₀, by rw [setModerationNote, setObject_objects_ne s _ _ noteData hk]; exact ho⟩
      obtain ⟨r₂, hr₂⟩ := hex
      obtain ⟨r', hr', hid'⟩ :=
        (getModerationNotesByIds_slot env (setModerationNote s uid noteData) uid noteIds i _
          hid).2 r₂ hr₂
      exact ⟨r', hr', by rw [hid', hid₁]⟩
  · intro hhas
    refine ⟨_, setObject_objects_same s _ noteData, ?_⟩
    rw [getField_mergeFields, hhas]
    rfl


/-! ## Posts by category -/

/-- The result of `Posts.filterPidsByCid` for a single non-empty cid does not
depend on the cid. -/
theorem filterPidsByCid_ignores_cid (s : Store) (pids : List Val) (c c' : Prim)
    (hc : c.truthy = true) (hc' : c'.truthy = true) :
    filterPidsByCid s pids (.value (.prim c)) = filterPidsByCid s pids (.value (.prim c')) := by
  simp [filterPidsByCid, filterPidsByVal, Val.truthy, hc, hc']

/-- C16: in the sample category store, where category 5 holds posts 1 and 2
and category 6 holds post 3, `Posts.filterPidsByCid([1, 2, 3], cid)` returns no
pid for `cid = 5` and for `cid = 6` alike, where posts 1 and 2, respectively
post 3, are called for: the membership test reads the index named by the
uninterpolated text of line 50. -/
theorem filterPidsByCid_literal_key :
    filterPidsByCid sampleCategoryStore [Val.num 1, Val.num 2, Val.num 3]
        (.value (Val.num 5)) = [] ∧
      filterPidsByCid sampleCategoryStore [Val.num 1, Val.num 2, Val.num 3]
        (.value (Val.num 6)) = [] ∧
      filterPidsByCidClaimed sampleCategoryStore [Val.num 1, Val.num 2, Val.num 3]
        (Val.num 5) = [Val.num 1, Val.num 2] ∧
      filterPidsByCidClaimed sampleCategoryStore [Val.num 1, Val.num 2, Val.num 3]
        (Val.num 6) = [Val.num 3] := by
  decide

theorem mem_uniq (l : List Val) (x : Val) : x ∈ uniq l ↔ x ∈ l := by
  induction l with
  | nil => simp [uniq]
  | cons a l ih =>
    by_cases h : x = a
    · subst h; simp [uniq]
    · simp [uniq, List.mem_filter, ih, h]

theorem zipObject_map (f : Val → Option Rec) (tids : List Val) :
    zipObject tids (tids.map f) = tids.map (fun t => (t.toJsString, f t)) := by
  induction tids with
  | nil => rfl
  | cons t tids ih => simp [zipObject, ih]

theorem foldl_readKey (f : Val → Option Rec) (key : String) (v : Option Rec) (tids : List Val)
    (h : ∀ t ∈ tids, t.toJsString = key → f t = v) (acc : Option Rec) :
    (tids.map (fun t => (t.toJsString, f t))).foldl
        (fun acc p => if p.1 = key then p.2 else acc) acc =
      if tids.any (fun t => t.toJsString = key) then v else acc := by
  induction tids generalizing acc with
  | nil => simp
  | cons t tids ih =>
    have ih' := ih (fun x hx => h x (List.mem_cons_of_mem t hx))
    simp only [List.map_cons, List.foldl_cons, ih', List.any_cons]
    by_cases ht : t.toJsString = key
    · simp [ht, h t (List.mem_cons_self t tids) ht]
    · simp [ht]

/-- C20: for pids whose tids print differently whenever they differ,
`Posts.getCidsByPids` returns one entry per pid, in order; entry `i` is the cid
of the topic of post `i`, and `undefined` when post `i` has no tid or its topic
does not exist, however often a tid occurs among the posts. -/
theorem getCidsByPids_aligned (env : Env) (topicCid : Val → Option Val) (pids : List Val)
    (hprint : ∀ p ∈ pids, ∀ q ∈ pids,
      (env.postTid p).toJsString = (env.postTid q).toJsString → env.postTid p = env.postTid q) :
    (getCidsByPids env topicCid pids).length = pids.length ∧
      ∀ (i : Nat) (pid : Val), pids[i]? = some pid →
        (getCidsByPids env topicCid pids)[i]? =
          some (if (env.postTid pid).truthy then
              match topicCid (env.postTid pid) with
              | some cid => cid
              | none => Val.undefined
            else Val.undefined) := by
  constructor
  · simp [getCidsByPids, getPostsFields]
  · intro i pid hi
    have hmem : pid ∈ pids := List.getElem?_mem hi
    simp only [getCidsByPids, getPostsFields, List.map_map, List.getElem?_map, hi,
      Option.map_some', Function.comp, getField, if_true, getTopicsCids, zipObject_map, readKey]
    have hkey := foldl_readKey
      (fun tid => if tid.truthy then (topicCid tid).map (fun c => [("cid", c)]) else none)
      (env.postTid pid).toJsString
      (if (env.postTid pid).truthy then (topicCid (env.postTid pid)).map (fun c => [("cid", c)])
        else none)
      (uniq ((pids.map env.postTid).filter Val.truthy))
      (by
        intro t ht hts
        rw [mem_uniq, List.mem_filter, List.mem_map] at ht
        obtain ⟨⟨q, hq, rfl⟩, -⟩ := ht
        rw [hprint q hq pid hmem hts]) none
    have hcomp : ((fun post => getField post "tid") ∘ fun pid => [("tid", env.postTid pid)]) =
        env.postTid := by
      funext p; simp [getField]
    rw [hcomp, hkey]
    by_cases ht : (env.postTid pid).truthy = true
    · have hany : ((uniq ((pids.map env.postTid).filter Val.truthy)).any fun t =>
          decide (t.toJsString = (env.postTid pid).toJsString)) = true := by
        rw [List.any_eq_true]
        refine ⟨env.postTid pid, ?_, by simp⟩
        rw [mem_uniq, List.mem_filter]
        exact ⟨List.mem_map.mpr ⟨pid, hmem, rfl⟩, ht⟩
      simp only [hany, ht, if_true]
      cases topicCid (env.postTid pid) <;> simp [getField]
    · simp [ht]

theorem getCidsByPids_aligned_witness :
    (∀ p ∈ [Val.num 10, Val.num 11, Val.num 10], ∀ q ∈ [Val.num 10, Val.num 11, Val.num 10],
        (sampleEnv.postTid p).toJsString = (sampleEnv.postTid q).toJsString →
          sampleEnv.postTid p = sampleEnv.postTid q) ∧
      (getCidsByPids sampleEnv sampleTopicCid [Val.num 10, Val.num 11, Val.num 10]).length =
        [Val.num 10, Val.num 11, Val.num 10].length ∧
      ∀ (i : Nat) (pid : Val), [Val.num 10, Val.num 11, Val.num 10][i]? = some pid →
        (getCidsByPids sampleEnv sampleTopicCid [Val.num 10, Val.num 11, Val.num 10])[i]? =
          some (if (sampleEnv.postTid pid).truthy then
              match sampleTopicCid (sampleEnv.postTid pid) with
              | some cid => cid
              | none => Val.undefined
            else Val.undefined) :=
  ⟨by decide,
    getCidsByPids_aligned sampleEnv sampleTopicCid [Val.num 10, Val.num 11, Val.num 10]
      (by decide)⟩

/-- The sample lookup: posts 10, 11, 10, of which post 11 has no topic and topic
100 of post 10 is in category 5. -/
theorem getCidsByPids_sample :
    getCidsByPids sampleEnv sampleTopicCid [Val.num 10, Val.num 11, Val.num 10] =
      [Val.num 5, Val.undefined, Val.num 5] := by
  decide

/-- Two tids that differ and print alike share one key of `tidToTopic`: a post
whose tid is the number 0 (no topic) then receives the cid of the topic of the
post whose tid is the string "0". -/
theorem getCidsByPids_print_collision :
    getCidsByPids
        { sampleEnv with postTid := fun pid => if pid = Val.num 1 then Val.str "0" else Val.num 0 }
        (fun tid => if tid = Val.str "0" then some (Val.num 9) else none)
        [Val.num 1, Val.num 2] = [Val.num 9, Val.num 9] := by
  decide


/-! ## Topic creation -/

theorem setDefaultPostData_timestamp (api : TopicsApi) (caller payload : Rec) :
    getField (setDefaultPostData api caller payload) "timestamp" = Val.num api.now := by
  simp [setDefaultPostData, getField_setField]

/-- The payload that `create` queues or posts is the one of `createPayload`, and
`create` fails whenever `createPayload` does. -/
theorem create_of_createPayload (api : TopicsApi) (caller : Rec) (data : Option Rec) :
    (∀ e, createPayload api caller data = .error e → create api caller data = .error e) ∧
      ∀ outcome, create api caller data = .ok outcome →
        ∃ payload, createPayload api caller data = .ok payload ∧
          (outcome = .queued payload ∨ outcome = .posted payload) := by
  constructor
  · intro e he
    simp [create, he]
  · intro outcome ho
    unfold create at ho
    cases hp : createPayload api caller data with
    | error e => simp [hp] at ho
    | ok payload =>
      simp only [hp] at ho
      refine ⟨payload, rfl, ?_⟩
      by_cases hb : api.blacklisted (getField caller "ip") = true
      · simp [hb] at ho
      · by_cases hq : api.shouldQueue (getField caller "uid") payload = true
        · simp only [hb, hq, if_true, Bool.false_eq_true, if_false] at ho
          injection ho with ho
          exact Or.inl ho.symm
        · simp only [hb, hq, Bool.false_eq_true, if_false] at ho
          injection ho with ho
          exact Or.inr ho.symm

/-- The three ways through lines 85-93 of `create`, by the test of line 86 and
the privilege of the caller. -/
theorem createPayload_cases (api : TopicsApi) (caller data : Rec) :
    (greaterThan (dataTimestamp data) (Val.num api.now) = true →
        api.can "topics:schedule" (getField data "cid") (getField caller "uid") = false →
        createPayload api caller (some data) = .error (.error "[[error:no-privileges]]") ∧
          create api caller (some data) = .error (.error "[[error:no-privileges]]")) ∧
      (greaterThan (dataTimestamp data) (Val.num api.now) = true →
        api.can "topics:schedule" (getField data "cid") (getField caller "uid") = true →
        ∃ payload, createPayload api caller (some data) = .ok payload ∧
          getField payload "timestamp" = dataTimestamp data) ∧
      (greaterThan (dataTimestamp data) (Val.num api.now) = false →
        ∃ payload, createPayload api caller (some data) = .ok payload ∧
          getField payload "timestamp" = Val.num api.now) := by
  refine ⟨?_, ?_, ?_⟩
  · intro hlater hcan
    have hp : createPayload api caller (some data) = .error (.error "[[error:no-privileges]]") := by
      simp [createPayload, setDefaultPostData_timestamp, hlater, hcan]
    exact ⟨hp, (create_of_createPayload api caller (some data)).1 _ hp⟩
  · intro hlater hcan
    refine ⟨setField (setDefaultPostData api caller
        (setField data "tags" (jsOr (getField data "tags") (Val.arr [])))) "timestamp"
        (dataTimestamp data), ?_, getField_setField_same _ _ _⟩
    simp only [createPayload, setDefaultPostData_timestamp, hlater, hcan, if_true]
  · intro hnot
    refine ⟨setDefaultPostData api caller
        (setField data "tags" (jsOr (getField data "tags") (Val.arr []))), ?_,
      setDefaultPostData_timestamp _ _ _⟩
    simp only [createPayload, setDefaultPostData_timestamp, hnot]
    rfl

/-- A timestamp supplied as the number `supplied`, or as a text whose integer
parse is `supplied`, is later than the default exactly when `supplied` is above
the current time. -/
theorem greaterThan_supplied (api : TopicsApi) (data : Rec) (supplied : Int)
    (hsupplied : getField data "timestamp" = Val.num supplied ∨
      ∃ text, getField data "timestamp" = Val.str text ∧
        parseInt (Val.str text) = Val.num supplied) :
    dataTimestamp data = Val.num supplied ∧
      greaterThan (dataTimestamp data) (Val.num api.now) = decide (api.now < supplied) := by
  have hts : dataTimestamp data = Val.num supplied := by
    rcases hsupplied with h | ⟨text, h, hparse⟩
    · simp [dataTimestamp, h, isString]
    · simp [dataTimestamp, h, isString, hparse]
  exact ⟨hts, by rw [hts]; rfl⟩

/-- What `create` returns once the payload is built: the blacklist error, or the
payload queued or posted. -/
theorem create_of_payload (api : TopicsApi) (caller : Rec) (data : Option Rec) (payload : Rec)
    (hp : createPayload api caller data = .ok payload)
    (hb : api.blacklisted (getField caller "ip") = false) :
    create api caller data = .ok (.queued payload) ∨
      create api caller data = .ok (.posted payload) := by
  unfold create
  simp only [hp, hb]
  by_cases hq : api.shouldQueue (getField caller "uid") payload = true
  · left; simp [hq]
  · right; simp [hq]

/-- C17: for a request whose `data.timestamp` is the number `supplied`, or a text
whose integer parse is `supplied`, and the default timestamp `now` set on the
payload: when `now < supplied` and the caller lacks `topics:schedule` in
`data.cid`, `create` fails with `[[error:no-privileges]]` and nothing is queued
or posted; when `now < supplied` and the caller has it, the payload that is
queued or posted carries `supplied` as timestamp; when `supplied ≤ now`, it
carries `now`. -/
theorem create_scheduling (api : TopicsApi) (caller data : Rec) (supplied : Int)
    (hsupplied : getField data "timestamp" = Val.num supplied ∨
      ∃ text, getField data "timestamp" = Val.str text ∧
        parseInt (Val.str text) = Val.num supplied) :
    (api.now < supplied →
        api.can "topics:schedule" (getField data "cid") (getField caller "uid") = false →
        create api caller (some data) = .error (.error "[[error:no-privileges]]") ∧
          ∀ outcome, create api caller (some data) ≠ .ok outcome) ∧
      (api.now < supplied →
        api.can "topics:schedule" (getField data "cid") (getField caller "uid") = true →
        (∀ outcome, create api caller (some data) = .ok outcome →
          getField outcome.payload "timestamp" = Val.num supplied) ∧
        (api.blacklisted (getField caller "ip") = false →
          ∃ outcome, create api caller (some data) = .ok outcome ∧
            getField outcome.payload "timestamp" = Val.num supplied)) ∧
      (supplied ≤ api.now →
        (∀ outcome, create api caller (some data) = .ok outcome →
          getField outcome.payload "timestamp" = Val.num api.now) ∧
        (api.blacklisted (getField caller "ip") = false →
          ∃ outcome, create api caller (some data) = .ok outcome ∧
            getField outcome.payload "timestamp" = Val.num api.now)) := by
  obtain ⟨hts, hgt⟩ := greaterThan_supplied api data supplied hsupplied
  obtain ⟨hdeny, hgrant, hkeep⟩ := createPayload_cases api caller data
  have hgoes : ∀ (payload : Rec) (ts : Val),
      createPayload api caller (some data) = .ok payload → getField payload "timestamp" = ts →
      (∀ outcome, create api caller (some data) = .ok outcome →
          getField outcome.payload "timestamp" = ts) ∧
        (api.blacklisted (getField caller "ip") = false →
          ∃ outcome, create api caller (some data) = .ok outcome ∧
            getField outcome.payload "timestamp" = ts) := by
    intro payload ts hp hpts
    constructor
    · intro outcome ho
      obtain ⟨payload', hp', hcase⟩ := (create_of_createPayload api caller (some data)).2 outcome ho
      rw [hp] at hp'
      injection hp' with hp'
      subst hp'
      rcases hcase with rfl | rfl <;> exact hpts
    · intro hb
      rcases create_of_payload api caller (some data) payload hp hb with h | h
      · exact ⟨_, h, hpts⟩
      · exact ⟨_, h, hpts⟩
  refine ⟨?_, ?_, ?_⟩
  · intro hlater hcan
    have h := (hdeny (by rw [hgt]; simpa using hlater) hcan).2
    refine ⟨h, ?_⟩
    intro outcome ho
    rw [h] at ho
    cases ho
  · intro hlater hcan
    obtain ⟨payload, hp, hpts⟩ := hgrant (by rw [hgt]; simpa using hlater) hcan
    exact hgoes payload _ hp (hpts.trans hts)
  · intro hnot
    obtain ⟨payload, hp, hpts⟩ := hkeep (by rw [hgt]; simpa using hnot)
    exact hgoes payload _ hp hpts

theorem create_scheduling_witness :
    (getField [("cid", Val.num 5), ("timestamp", Val.str "2000")] "timestamp" = Val.num 2000 ∨
        ∃ text, getField [("cid", Val.num 5), ("timestamp", Val.str "2000")] "timestamp" =
            Val.str text ∧ parseInt (Val.str text) = Val.num 2000) ∧
      sampleApi.now < 2000 ∧
      sampleApi.can "topics:schedule" (Val.num 5) (Val.num 2) = false ∧
      create sampleApi [("uid", Val.num 2), ("ip", Val.str "10.0.0.1")]
        (some [("cid", Val.num 5), ("timestamp", Val.str "2000")]) =
        .error (.error "[[error:no-privileges]]") :=
  ⟨Or.inr ⟨"2000", by decide, by decide⟩, by decide, by decide,
    ((create_scheduling sampleApi [("uid", Val.num 2), ("ip", Val.str "10.0.0.1")]
      [("cid", Val.num 5), ("timestamp", Val.str "2000")] 2000
      (Or.inr ⟨"2000", by decide, by decide⟩)).1 (by decide) (by decide)).1⟩

/-- A request without a timestamp goes on with the default timestamp. -/
theorem createPayload_no_timestamp (api : TopicsApi) (caller data : Rec)
    (h : getField data "timestamp" = Val.undefined) :
    ∃ payload, createPayload api caller (some data) = .ok payload ∧
      getField payload "timestamp" = Val.num api.now := by
  apply (createPayload_cases api caller data).2.2
  simp [dataTimestamp, h, isString, greaterThan, toNumber]

/-! ## Group pages -/

theorem normalizeSlug_eq_some (g : GroupsEnv) (req : DetailsRequest) (slug : String)
    (h : normalizeSlug g req = some slug) : slug = g.toLowerCase req.slug := by
  simp only [normalizeSlug] at h
  split_ifs at h <;> (injection h with h; exact h.symm)

theorem checkGroupAccess_iff (g : GroupsEnv) (groupName : String) (uid : Val)
    (isAdmin isGlobalMod : Bool) :
    checkGroupAccess g groupName uid isAdmin isGlobalMod = true ↔
      (g.isHidden groupName = false ∨ isAdmin = true ∨ isGlobalMod = true ∨
        g.isMember uid groupName = true ∨ g.isInvited uid groupName = true) := by
  unfold checkGroupAccess
  cases g.isHidden groupName <;> cases isAdmin <;> cases isGlobalMod <;>
    cases g.isMember uid groupName <;> cases g.isInvited uid groupName <;> simp

/-- C18: `checkGroupAccess` grants access exactly when the group is not hidden,
or the caller is an admin, a global moderator, a member of the group or invited
to it; `groupsController.details` renders only for a group for which the check
grants access, and answers `next` when the check is reached and denies it. -/
theorem details_access (g : GroupsEnv) (req : DetailsRequest) :
    (∀ (groupName : String) (isAdmin isGlobalMod : Bool),
        checkGroupAccess g groupName req.uid isAdmin isGlobalMod = true ↔
          (g.isHidden groupName = false ∨ isAdmin = true ∨ isGlobalMod = true ∨
            g.isMember req.uid groupName = true ∨ g.isInvited req.uid groupName = true)) ∧
      (∀ template group posts isAdmin isGlobalMod,
        details g req = .render template group posts isAdmin isGlobalMod →
          ∃ groupName, g.getGroupNameByGroupSlug (g.toLowerCase req.slug) = some groupName ∧
            isAdmin = g.canAdminGroups req.uid ∧ isGlobalMod = g.isGlobalModerator req.uid ∧
            checkGroupAccess g groupName req.uid isAdmin isGlobalMod = true) ∧
      (∀ groupName, normalizeSlug g req ≠ none →
        g.getGroupNameByGroupSlug (g.toLowerCase req.slug) = some groupName →
        checkGroupAccess g groupName req.uid (g.canAdminGroups req.uid)
          (g.isGlobalModerator req.uid) = false →
        details g req = .next) := by
  refine ⟨fun groupName isAdmin isGlobalMod =>
    checkGroupAccess_iff g groupName req.uid isAdmin isGlobalMod, ?_, ?_⟩
  · intro template group posts isAdmin isGlobalMod h
    unfold details at h
    cases hn : normalizeSlug g req with
    | none => simp [hn] at h
    | some slug =>
      have hslug := normalizeSlug_eq_some g req slug hn
      subst hslug
      simp only [hn] at h
      cases hname : g.getGroupNameByGroupSlug (g.toLowerCase req.slug) with
      | none => simp [hname] at h
      | some groupName =>
        simp only [hname] at h
        refine ⟨groupName, rfl, ?_⟩
        split_ifs at h with h1 h2 h3
        cases hg : g.getGroup groupName req.uid with
        | none => simp [hg] at h
        | some groupData =>
          simp only [hg] at h
          injection h with _ _ _ ha hm
          subst ha hm
          exact ⟨rfl, rfl, by simpa using h3⟩
  · intro groupName hn hname hdenied
    unfold details
    cases hslug : normalizeSlug g req with
    | none => exact absurd hslug hn
    | some slug =>
      have hs := normalizeSlug_eq_some g req slug hslug
      subst hs
      simp only [hname, hdenied]
      split_ifs <;> simp_all

/-! ## Admin index -/

theorem firstRedirect_eq_none (ps : Rec) (l : List (String × String)) :
    firstRedirect ps l = none ↔ ∀ p ∈ l, (getField ps p.1).truthy = false := by
  induction l with
  | nil => simp [firstRedirect]
  | cons p l ih =>
    obtain ⟨privilege, route⟩ := p
    by_cases h : (getField ps privilege).truthy = true
    · simp [firstRedirect, h]
    · simp [firstRedirect, h, ih]

theorem firstRedirect_eq_some (ps : Rec) (l : List (String × String)) (route : String) :
    firstRedirect ps l = some route ↔
      ∃ i, ∃ hi : i < l.length, (getField ps l[i].1).truthy = true ∧ l[i].2 = route ∧
        ∀ j, ∀ hj : j < i, (getField ps (l[j]).1).truthy = false := by
  induction l with
  | nil => simp [firstRedirect]
  | cons p l ih =>
    obtain ⟨privilege, r⟩ := p
    by_cases h : (getField ps privilege).truthy = true
    · simp only [firstRedirect, h, if_true, Option.some.injEq]
      constructor
      · intro hr
        exact ⟨0, by simp, by simpa using h, by simpa using hr, fun j hj => by omega⟩
      · rintro ⟨i, hi, hheld, hroute, hfirst⟩
        cases i with
        | zero => simpa using hroute
        | succ i =>
          have := hfirst 0 (by omega)
          simp [h] at this
    · have hf : (getField ps privilege).truthy = false := by simpa using h
      simp only [firstRedirect, hf, Bool.false_eq_true, if_false, ih]
      constructor
      · rintro ⟨i, hi, hheld, hroute, hfirst⟩
        refine ⟨i + 1, by simpa using hi, by simpa using hheld, by simpa using hroute, ?_⟩
        intro j hj
        cases j with
        | zero => simpa using hf
        | succ j => simpa using hfirst j (by omega)
      · rintro ⟨i, hi, hheld, hroute, hfirst⟩
        cases i with
        | zero => simp [hf] at hheld
        | succ i =>
          refine ⟨i, by simpa using hi, by simpa using hheld, by simpa using hroute, ?_⟩
          intro j hj
          simpa using hfirst (j + 1) (by omega)

/-- C19: `adminController.routeIndex` serves the dashboard exactly when the
privilege set holds `superadmin` or `admin:dashboard`; otherwise it redirects to
a route exactly when that route belongs to the first entry of `redirects` whose
privilege is held; and it answers `notAllowed` exactly when none of `superadmin`,
`admin:dashboard` and the seven privileges of `redirects` is held. -/
theorem routeIndex_spec (privilegeSet : Rec) :
    (routeIndex privilegeSet = .dashboard ↔
        ((getField privilegeSet "superadmin").truthy = true ∨
          (getField privilegeSet "admin:dashboard").truthy = true)) ∧
      (∀ route, routeIndex privilegeSet = .redirect route ↔
        ((getField privilegeSet "superadmin").truthy = false ∧
          (getField privilegeSet "admin:dashboard").truthy = false ∧
          ∃ i, ∃ hi : i < redirects.length,
            (getField privilegeSet redirects[i].1).truthy = true ∧ redirects[i].2 = route ∧
            ∀ j, ∀ hj : j < i, (getField privilegeSet (redirects[j]).1).truthy = false)) ∧
      (routeIndex privilegeSet = .notAllowed ↔
        ((getField privilegeSet "superadmin").truthy = false ∧
          (getField privilegeSet "admin:dashboard").truthy = false ∧
          ∀ p ∈ redirects, (getField privilegeSet p.1).truthy = false)) ∧
      redirects.map Prod.fst =
        ["admin:categories", "admin:privileges", "admin:users", "admin:groups",
          "admin:admins-mods", "admin:tags", "admin:settings"] := by
  have hdash : ∀ b₁ b₂ : Bool, (b₁ || b₂) = false ↔ b₁ = false ∧ b₂ = false := by decide
  refine ⟨?_, ?_, ?_, rfl⟩
  · unfold routeIndex
    cases h₁ : (getField privilegeSet "superadmin").truthy <;>
      cases h₂ : (getField privilegeSet "admin:dashboard").truthy <;>
      cases firstRedirect privilegeSet redirects <;> simp
  · intro route
    rw [← firstRedirect_eq_some]
    unfold routeIndex
    cases h₁ : (getField privilegeSet "superadmin").truthy <;>
      cases h₂ : (getField privilegeSet "admin:dashboard").truthy <;>
      cases firstRedirect privilegeSet redirects <;> simp
  · rw [← firstRedirect_eq_none]
    unfold routeIndex
    cases h₁ : (getField privilegeSet "superadmin").truthy <;>
      cases h₂ : (getField privilegeSet "admin:dashboard").truthy <;>
      cases firstRedirect privilegeSet redirects <;> simp


/-! ## Instances on the sample controllers -/

/-- The sample requests: with the default time 1000, user 2 may not schedule in
category 5 and fails when the supplied timestamp 2000 is later; user 1 may and
goes on with 2000; the earlier timestamp 500 is replaced by the default. -/
theorem create_sample :
    create sampleApi [("uid", Val.num 2), ("ip", Val.str "10.0.0.1")]
        (some [("cid", Val.num 5), ("timestamp", Val.str "2000")]) =
        .error (.error "[[error:no-privileges]]") ∧
      (create sampleApi [("uid", Val.num 1), ("ip", Val.str "10.0.0.1")]
        (some [("cid", Val.num 5), ("timestamp", Val.num 2000)])).map
          (fun outcome => match outcome with
            | .queued payload => getField payload "timestamp"
            | .posted payload => getField payload "timestamp") = .ok (Val.num 2000) ∧
      (create sampleApi [("uid", Val.num 2), ("ip", Val.str "10.0.0.1")]
        (some [("cid", Val.num 5), ("timestamp", Val.num 500)])).map
          (fun outcome => match outcome with
            | .queued payload => getField payload "timestamp"
            | .posted payload => getField payload "timestamp") = .ok (Val.num 1000) := by
  decide

/-- The sample group page: the hidden group is rendered for its member, user 1,
and handed to `next` for user 2. -/
theorem details_sample :
    details sampleGroups { slug := "staff", uid := Val.num 1, isAPI := false } =
        .render "groups/details" [("name", Val.str "Staff")] Val.undefined false false ∧
      details sampleGroups { slug := "staff", uid := Val.num 2, isAPI := false } = .next := by
  decide

/-- The sample privilege sets: a holder of users and tags is sent to the users
page, a holder of nothing is not allowed. -/
theorem routeIndex_sample :
    routeIndex [("admin:tags", Val.true), ("admin:users", Val.true)] =
        .redirect "admin/manage/users" ∧
      routeIndex [("admin:dashboard", Val.true), ("admin:users", Val.true)] = .dashboard ∧
      routeIndex [("admin:tags", .prim (.bool false))] = .notAllowed := by
  decide


/-! ## Group list pages -/

theorem le_ceilDiv_mul (a b : Nat) (hb : 0 < b) : a ≤ ceilDiv a b * b := by
  unfold ceilDiv
  have h := Nat.div_add_mod (a + b - 1) b
  have hm := Nat.mod_lt (a + b - 1) hb
  rw [Nat.mul_comm] at h
  generalize (a + b - 1) / b * b = p at h ⊢
  omega

theorem ceilDiv_le_of_le_mul (a b m : Nat) (hb : 0 < b) (h : a ≤ m * b) : ceilDiv a b ≤ m := by
  unfold ceilDiv
  apply Nat.le_of_lt_succ
  rw [Nat.div_lt_iff_lt_mul hb, Nat.succ_mul]
  omega

theorem ceilDiv_eq_ceil (a b : Nat) (hb : 0 < b) : ceilDiv a b = ⌈(a : ℚ) / b⌉₊ := by
  have hbq : (0 : ℚ) < b := by exact_mod_cast hb
  apply le_antisymm
  · apply ceilDiv_le_of_le_mul a b _ hb
    have h := Nat.le_ceil ((a : ℚ) / b)
    rw [div_le_iff₀ hbq] at h
    exact_mod_cast h
  · rw [Nat.ceil_le, div_le_iff₀ hbq]
    exact_mod_cast le_ceilDiv_mul a b hb

theorem jsSlice_of_le {α : Type} (l : List α) (a c : Nat) :
    jsSlice l (a : Int) ((a : Int) + c) = (l.drop a).take c := by
  unfold jsSlice
  have h1 : ¬ ((a : Int) < 0) := by omega
  have h2 : ¬ ((a : Int) + c < 0) := by omega
  simp only [h1, h2, if_false]
  by_cases hal : a ≤ l.length
  · have hk : (min (a : Int) (l.length : Int)).toNat = a := by omega
    rw [hk]
    by_cases hcl : a + c ≤ l.length
    · have : (max (min ((a : Int) + c) (l.length : Int) - min (a : Int) (l.length : Int)) 0).toNat
          = c := by omega
      rw [this]
    · have : (max (min ((a : Int) + c) (l.length : Int) - min (a : Int) (l.length : Int)) 0).toNat
          = l.length - a := by omega
      rw [this, List.take_of_length_le (by simp), List.take_of_length_le (by simp; omega)]
  · have hk : (min (a : Int) (l.length : Int)).toNat = l.length := by omega
    rw [hk, List.drop_of_length_le (le_refl _), List.drop_of_length_le (by omega)]
    simp

theorem flatMap_chunks {α : Type} (l : List α) (c m : Nat) :
    (List.range m).flatMap (fun k => (l.drop (k * c)).take c) = l.take (m * c) := by
  induction m with
  | zero => simp
  | succ m ih =>
    rw [List.range_succ, List.flatMap_append, ih, Nat.succ_mul, List.take_add]
    simp

/-- With a search query, `getGroups` returns the hundred results that start at
index `max(0, page - 1) * 100`, and the page count of the whole result. -/
theorem getGroups_search (g : GroupsListEnv) (req : ListRequest) (sort : Val) (page : Int)
    (hq : req.query.truthy = true) :
    getGroups g req sort page =
      (((g.search req.query (searchOptions g req sort)).drop
          ((max 0 (page - 1)).toNat * 100)).take 100,
        ceilDiv (g.search req.query (searchOptions g req sort)).length 100) := by
  have hstart : (max 0 (page - 1) * ((100 : Nat) : Int)) =
      (((max 0 (page - 1)).toNat * 100 : Nat) : Int) := by
    have : (0 : Int) ≤ max 0 (page - 1) := le_max_left _ _
    push_cast
    rw [Int.toNat_of_nonneg this]
  have hslice := jsSlice_of_le (g.search req.query (searchOptions g req sort))
    ((max 0 (page - 1)).toNat * 100) 100
  simp only [getGroups, hq, if_true]
  rw [hstart]
  have hstop : ((((max 0 (page - 1)).toNat * 100 : Nat) : Int) + ((100 : Nat) : Int) - 1 + 1) =
      (((max 0 (page - 1)).toNat * 100 : Nat) : Int) + ((100 : Nat) : Int) := by ring
  rw [hstop, hslice]

/-- C21: for a search query whose result has `n` groups, `getGroups` returns the
page count `ceil(n / 100)` and, for page `p`, the results at the indices from
`max(0, p - 1) * 100` to `max(0, p - 1) * 100 + 99`; a page holds at most 100
groups, the pages 1 to the page count appended in order are the whole result, a
page beyond the page count is empty, and a page below 1 is the first page;
`groupsController.list` asks for the page `parseInt(req.query.page, 10) || 1`. -/
theorem getGroups_pages (g : GroupsListEnv) (req : ListRequest) (sort : Val)
    (hq : req.query.truthy = true) :
    (∀ page : Int, (getGroups g req sort page).2 =
        ⌈((g.search req.query (searchOptions g req sort)).length : ℚ) / 100⌉₊) ∧
      (∀ (page : Int) (j : Nat), (getGroups g req sort page).1[j]? =
        if j < 100 then
          (g.search req.query (searchOptions g req sort))[(max 0 (page - 1)).toNat * 100 + j]?
        else none) ∧
      (∀ page : Int, (getGroups g req sort page).1.length ≤ 100) ∧
      (List.range (getGroups g req sort 1).2).flatMap
          (fun k => (getGroups g req sort ((k : Int) + 1)).1) =
        g.search req.query (searchOptions g req sort) ∧
      (∀ page : Int, ((getGroups g req sort page).2 : Int) < page →
        (getGroups g req sort page).1 = []) ∧
      (∀ page : Int, page < 1 → (getGroups g req sort page).1 = (getGroups g req sort 1).1) ∧
      (list g req).groups =
        (getGroups g req (jsOr req.sort (Val.str "alpha")) (pageOf req.page)).1 ∧
      (list g req).pageCount =
        (getGroups g req (jsOr req.sort (Val.str "alpha")) (pageOf req.page)).2 := by
  refine ⟨?_, ?_, ?_, ?_, ?_, ?_, rfl, rfl⟩
  · intro page
    rw [getGroups_search g req sort page hq]
    have := ceilDiv_eq_ceil (g.search req.query (searchOptions g req sort)).length 100 (by decide)
    simpa using this
  · intro page j
    rw [getGroups_search g req sort page hq]
    by_cases hj : j < 100
    · simp [hj, List.getElem?_take, List.getElem?_drop]
    · simp [hj, List.getElem?_take]
  · intro page
    rw [getGroups_search g req sort page hq]
    simp only [List.length_take]
    omega
  · have hpage : ∀ k : Nat, (getGroups g req sort ((k : Int) + 1)).1 =
        ((g.search req.query (searchOptions g req sort)).drop (k * 100)).take 100 := by
      intro k
      rw [getGroups_search g req sort _ hq]
      have : (max 0 ((k : Int) + 1 - 1)).toNat = k := by omega
      simp only [this]
    simp only [hpage, flatMap_chunks, getGroups_search g req sort 1 hq]
    exact List.take_of_length_le (le_ceilDiv_mul _ 100 (by decide))
  · intro page hbeyond
    rw [getGroups_search g req sort page hq] at hbeyond ⊢
    have hle := le_ceilDiv_mul (g.search req.query (searchOptions g req sort)).length 100
      (by decide)
    simp only at hbeyond
    have hdrop : (g.search req.query (searchOptions g req sort)).length ≤
        (max 0 (page - 1)).toNat * 100 := by omega
    simp only [List.drop_of_length_le hdrop, List.take_nil]
  · intro page hlow
    rw [getGroups_search g req sort page hq, getGroups_search g req sort 1 hq]
    have h1 : (max 0 (page - 1)).toNat = 0 := by omega
    have h2 : (max 0 ((1 : Int) - 1)).toNat = 0 := by omega
    simp only [h1, h2]

theorem getGroups_pages_witness :
    (sampleListRequest (Val.str "3")).query.truthy = true ∧
      (∀ page : Int, (getGroups sampleGroupsList (sampleListRequest (Val.str "3"))
          (Val.str "alpha") page).2 =
        ⌈((sampleGroupsList.search (sampleListRequest (Val.str "3")).query
          (searchOptions sampleGroupsList (sampleListRequest (Val.str "3"))
            (Val.str "alpha"))).length : ℚ) / 100⌉₊) ∧
      (List.range (getGroups sampleGroupsList (sampleListRequest (Val.str "3"))
          (Val.str "alpha") 1).2).flatMap
          (fun k => (getGroups sampleGroupsList (sampleListRequest (Val.str "3"))
            (Val.str "alpha") ((k : Int) + 1)).1) =
        sampleGroupsList.search (sampleListRequest (Val.str "3")).query
          (searchOptions sampleGroupsList (sampleListRequest (Val.str "3")) (Val.str "alpha")) :=
  ⟨by decide,
    (getGroups_pages sampleGroupsList (sampleListRequest (Val.str "3")) (Val.str "alpha")
      (by decide)).1,
    (getGroups_pages sampleGroupsList (sampleListRequest (Val.str "3")) (Val.str "alpha")
      (by decide)).2.2.2.1⟩

set_option maxRecDepth 100000 in
/-- The sample list: of 250 groups, page 3 holds the last 50, from group 200 on,
page 4 is empty, page 0 and the unreadable page "x" are page 1, and there are 3
pages. -/
theorem list_sample :
    ((list sampleGroupsList (sampleListRequest (Val.str "3"))).groups.length,
        (list sampleGroupsList (sampleListRequest (Val.str "3"))).groups.head?,
        (list sampleGroupsList (sampleListRequest (Val.str "3"))).pageCount) =
        (50, some [("name", Val.num 200)], 3) ∧
      (list sampleGroupsList (sampleListRequest (Val.str "4"))).groups = [] ∧
      (list sampleGroupsList (sampleListRequest (Val.str "x"))).page = 1 ∧
      (list sampleGroupsList (sampleListRequest (Val.str "0"))).page = 1 ∧
      ((getGroups sampleGroupsList (sampleListRequest (Val.str "-2")) (Val.str "alpha")
          (-2)).1.length,
        (getGroups sampleGroupsList (sampleListRequest (Val.str "-2")) (Val.str "alpha")
          (-2)).1.head?) = (100, some [("name", Val.num 0)]) := by
  decide

end NodeBB
